import Mathlib

/-!
Shallow embedding of `src/kmer_stats.c` (kontaminant): the classification
and aggregation engine for per-read k-mer hit counts against a set of
reference contaminants.

Modelling conventions:
* C `int` counters are modelled as `Nat` (all counters in this module only
  ever grow from zero; the claims under verification do not concern integer
  overflow).  Thresholds from the command line are likewise modelled as `Nat`.
* Fixed-capacity C arrays indexed by contaminant (capacity `MAX_CONTAMINANTS`)
  are modelled as total functions `Nat → Nat`; the code only ever touches
  indices `< n_contaminants`.
* `pthread` lock/unlock calls are no-ops in a sequential shallow embedding;
  the `_parallel` variants are embedded from their own source bodies, with
  the lock calls dropped.
* The C functions mutate `stats->read[r]` / `stats->both_reads` in place and
  write `assigned_contaminant` / `unique_assigned_contaminant` back into the
  caller's `KmerCounts`; the embedding passes the counter record in and
  returns the new record together with those annotations.
* `double` percentage fields are modelled as `Option ℚ`: `some q` is the
  exact value of the C expression when its denominator is nonzero, `none`
  marks that the C code divided by zero (IEEE NaN/inf — a division
  artifact).  `calloc` initialises the C doubles to `0.0`, modelled `some 0`.
-/

/-- Modelled from the spec: `MAX_READ_LENGTH` is a fixed capacity constant
defined in the repository's header (not under `src/`); the histogram's last
bucket is a cumulative overflow bucket.  Its exact numeric value is
immaterial to every claim below. -/
def MAX_READ_LENGTH : Nat := 1000

/-- Per-read raw hit counts produced by the external k-mer lookup step
(`KmerCounts` in the C code).  Only the fields read by this module appear. -/
structure KmerCounts where
  kmers_loaded : Nat
  kmers_from_contaminant : Nat → Nat
  unique_kmers_from_contaminant : Nat → Nat
  contaminants_detected : Nat

/-- Run configuration fields of `CmdLine` read by this module. -/
structure CmdLine where
  kmer_threshold_read : Nat
  kmer_threshold_overall : Nat
  filter_unique : Bool

/-- `KmerStatsReadCounts`: the per-mate counter block.  Raw counters are
`Nat`; derived percentage fields are `Option ℚ` (see header comment). -/
structure KmerStatsReadCounts where
  number_of_reads : Nat
  k1_contaminated_reads : Nat
  kn_contaminated_reads : Nat
  contaminant_kmers_seen : Nat → Nat
  k1_contaminated_reads_by_contaminant : Nat → Nat
  k1_unique_contaminated_reads_by_contaminant : Nat → Nat
  kn_contaminated_reads_by_contaminant : Nat → Nat
  kn_unique_contaminated_reads_by_contaminant : Nat → Nat
  species_read_counts : Nat → Nat
  species_unclassified : Nat
  contaminated_kmers_per_read : Nat → Nat
  reads_unclassified : Nat
  reads_with_highest_contaminant : Nat → Nat
  k1_contaminaned_reads_pc : Option ℚ
  kn_contaminaned_reads_pc : Option ℚ
  k1_contaminated_reads_by_contaminant_pc : Nat → Option ℚ
  k1_unique_contaminated_reads_by_contaminant_pc : Nat → Option ℚ
  kn_contaminated_reads_by_contaminant_pc : Nat → Option ℚ
  kn_unique_contaminated_reads_by_contaminant_pc : Nat → Option ℚ
  contaminant_kmers_seen_pc : Nat → Option ℚ
  species_read_counts_pc : Nat → Option ℚ
  species_unclassified_pc : Option ℚ

/-- `kmer_stats_read_counts_initialise` as called on a freshly `calloc`ed
block in `kmer_stats_initialise`: every raw counter is zero (the fields the
C initialiser does not touch are zero from `calloc`), every percentage
double is `0.0`. -/
def kmer_stats_read_counts_initialise : KmerStatsReadCounts where
  number_of_reads := 0
  k1_contaminated_reads := 0
  kn_contaminated_reads := 0
  contaminant_kmers_seen := fun _ => 0
  k1_contaminated_reads_by_contaminant := fun _ => 0
  k1_unique_contaminated_reads_by_contaminant := fun _ => 0
  kn_contaminated_reads_by_contaminant := fun _ => 0
  kn_unique_contaminated_reads_by_contaminant := fun _ => 0
  species_read_counts := fun _ => 0
  species_unclassified := 0
  contaminated_kmers_per_read := fun _ => 0
  reads_unclassified := 0
  reads_with_highest_contaminant := fun _ => 0
  k1_contaminaned_reads_pc := some 0
  kn_contaminaned_reads_pc := some 0
  k1_contaminated_reads_by_contaminant_pc := fun _ => some 0
  k1_unique_contaminated_reads_by_contaminant_pc := fun _ => some 0
  kn_contaminated_reads_by_contaminant_pc := fun _ => some 0
  kn_unique_contaminated_reads_by_contaminant_pc := fun _ => some 0
  contaminant_kmers_seen_pc := fun _ => some 0
  species_read_counts_pc := fun _ => some 0
  species_unclassified_pc := some 0

/-- `f[i]++` on a contaminant-indexed array modelled as a function. -/
def bump (f : Nat → Nat) (i : Nat) : Nat → Nat :=
  fun j => if j = i then f j + 1 else f j

/-- Loop state of the per-contaminant scan in `update_stats` /
`update_stats_parallel` (locals `largest_kmers`, `largest_contaminant`,
`unique_largest_kmers`, `unique_largest_contaminant` plus the mutated
counter block). -/
structure K1ScanState where
  largest_kmers : Nat
  largest_contaminant : Nat
  unique_largest_kmers : Nat
  unique_largest_contaminant : Nat
  rc : KmerStatsReadCounts

/-- One iteration of the first `for` loop of `update_stats` (body guarded by
`counts->kmers_from_contaminant[i] > 0`). -/
def k1_scan_step (counts : KmerCounts) (s : K1ScanState) (i : Nat) : K1ScanState :=
  if 0 < counts.kmers_from_contaminant i then
    let s1 :=
      if s.largest_kmers < counts.kmers_from_contaminant i then
        { s with largest_kmers := counts.kmers_from_contaminant i, largest_contaminant := i }
      else s
    let s2 :=
      if s1.unique_largest_kmers < counts.unique_kmers_from_contaminant i then
        { s1 with unique_largest_kmers := counts.unique_kmers_from_contaminant i, unique_largest_contaminant := i }
      else s1
    let rc1 := { s2.rc with k1_contaminated_reads_by_contaminant := bump s2.rc.k1_contaminated_reads_by_contaminant i }
    let rc2 :=
      if counts.contaminants_detected = 1 then
        { rc1 with k1_unique_contaminated_reads_by_contaminant := bump rc1.k1_unique_contaminated_reads_by_contaminant i }
      else rc1
    { s2 with rc := rc2 }
  else s

/-- One iteration of the threshold-tier `for` loop of `update_stats`
(body guarded by `counts->kmers_from_contaminant[i] > kmer_threshold_read`,
a strict comparison). -/
def kn_scan_step (cmd_line : CmdLine) (counts : KmerCounts)
    (rc : KmerStatsReadCounts) (i : Nat) : KmerStatsReadCounts :=
  if cmd_line.kmer_threshold_read < counts.kmers_from_contaminant i then
    let rc1 := { rc with kn_contaminated_reads_by_contaminant := bump rc.kn_contaminated_reads_by_contaminant i }
    if counts.contaminants_detected = 1 then
      { rc1 with kn_unique_contaminated_reads_by_contaminant := bump rc1.kn_unique_contaminated_reads_by_contaminant i }
    else rc1
  else rc

/-- Entry of `update_stats`: `number_of_reads++` and the length-histogram
bump at `min(kmers_loaded, MAX_READ_LENGTH)` (the last bucket accumulates
overlong reads). -/
def read_entry (counts : KmerCounts) (rc0 : KmerStatsReadCounts) : KmerStatsReadCounts :=
  { rc0 with
      number_of_reads := rc0.number_of_reads + 1,
      contaminated_kmers_per_read := bump rc0.contaminated_kmers_per_read (min counts.kmers_loaded MAX_READ_LENGTH) }

/-- The `kmers_loaded > 0` block of `update_stats`: the per-contaminant scan
followed by `k1_contaminated_reads++`; skipped entirely (locals stay zero)
when no k-mer was loaded. -/
def k1_phase (counts : KmerCounts) (n_contaminants : Nat) (rcA : KmerStatsReadCounts) : K1ScanState :=
  if 0 < counts.kmers_loaded then
    let s := (List.range n_contaminants).foldl (k1_scan_step counts) ⟨0, 0, 0, 0, rcA⟩
    { s with rc := { s.rc with k1_contaminated_reads := s.rc.k1_contaminated_reads + 1 } }
  else (⟨0, 0, 0, 0, rcA⟩ : K1ScanState)

/-- Result of one single-read classification: the new counter block plus the
annotations the C code writes back into `counts` (`-1` means none). -/
structure UpdateStatsResult where
  rc : KmerStatsReadCounts
  assigned_contaminant : Int
  unique_assigned_contaminant : Int

/-- `update_stats` (the serial variant).  `stats->read[r]` is passed in as
`rc0` and `stats->n_contaminants` as `n_contaminants`; the returned record
is the updated block. -/
def update_stats (cmd_line : CmdLine) (n_contaminants : Nat) (counts : KmerCounts)
    (rc0 : KmerStatsReadCounts) : UpdateStatsResult :=
  let s1 := k1_phase counts n_contaminants (read_entry counts rc0)
  let assigned : Int := if s1.largest_kmers = 0 then -1 else (s1.largest_contaminant : Int)
  let rcB :=
    if s1.largest_kmers = 0 then
      { s1.rc with reads_unclassified := s1.rc.reads_unclassified + 1 }
    else
      { s1.rc with reads_with_highest_contaminant := bump s1.rc.reads_with_highest_contaminant s1.largest_contaminant }
  let unique_assigned : Int :=
    if s1.unique_largest_kmers = 0 then -1 else (s1.unique_largest_contaminant : Int)
  let rcC :=
    if cmd_line.kmer_threshold_read ≤ counts.kmers_loaded then
      let rc := (List.range n_contaminants).foldl (kn_scan_step cmd_line counts) rcB
      { rc with kn_contaminated_reads := rc.kn_contaminated_reads + 1 }
    else rcB
  ⟨rcC, assigned, unique_assigned⟩

/-- `update_stats_parallel`: identical decision logic, each counter update
wrapped in `pthread_mutex_lock`/`unlock` pairs that vanish in a sequential
embedding. -/
def update_stats_parallel (cmd_line : CmdLine) (n_contaminants : Nat) (counts : KmerCounts)
    (rc0 : KmerStatsReadCounts) : UpdateStatsResult :=
  let s1 := k1_phase counts n_contaminants (read_entry counts rc0)
  let assigned : Int := if s1.largest_kmers = 0 then -1 else (s1.largest_contaminant : Int)
  let rcB :=
    if s1.largest_kmers = 0 then
      { s1.rc with reads_unclassified := s1.rc.reads_unclassified + 1 }
    else
      { s1.rc with reads_with_highest_contaminant := bump s1.rc.reads_with_highest_contaminant s1.largest_contaminant }
  let unique_assigned : Int :=
    if s1.unique_largest_kmers = 0 then -1 else (s1.unique_largest_contaminant : Int)
  let rcC :=
    if cmd_line.kmer_threshold_read ≤ counts.kmers_loaded then
      let rc := (List.range n_contaminants).foldl (kn_scan_step cmd_line counts) rcB
      { rc with kn_contaminated_reads := rc.kn_contaminated_reads + 1 }
    else rcB
  ⟨rcC, assigned, unique_assigned⟩

example :
    (update_stats ⟨2, 4, false⟩ 6
      ⟨20, (fun i => if i = 2 ∨ i = 5 then 5 else 0), (fun _ => 0), 2⟩
      kmer_stats_read_counts_initialise).assigned_contaminant = 2 := by decide

example :
    (update_stats ⟨2, 4, false⟩ 3
      ⟨0, (fun _ => 9), (fun _ => 0), 2⟩
      kmer_stats_read_counts_initialise).assigned_contaminant = -1 := by decide

/-- `KmerStatsBothReads`: the pair-level counter block. -/
structure KmerStatsBothReads where
  number_of_reads : Nat
  threshold_passed_reads : Nat
  k1_both_reads_not_threshold : Nat
  k1_either_read_not_threshold : Nat
  threshold_passed_reads_unique : Nat
  k1_both_reads_not_threshold_unique : Nat
  k1_either_read_not_threshold_unique : Nat
  threshold_passed_reads_by_contaminant : Nat → Nat
  k1_both_reads_not_threshold_by_contaminant : Nat → Nat
  k1_either_read_not_threshold_by_contaminant : Nat → Nat
  threshold_passed_reads_unique_by_contaminant : Nat → Nat
  k1_both_reads_not_threshold_unique_by_contaminant : Nat → Nat
  k1_either_read_not_threshold_unique_by_contaminant : Nat → Nat
  contaminant_kmers_seen : Nat → Nat
  filter_read : Bool
  threshold_passed_reads_pc : Option ℚ
  k1_both_reads_not_threshold_pc : Option ℚ
  k1_either_read_not_threshold_pc : Option ℚ
  threshold_passed_reads_pc_unique : Option ℚ
  k1_both_reads_not_threshold_pc_unique : Option ℚ
  k1_either_read_not_threshold_pc_unique : Option ℚ
  threshold_passed_reads_by_contaminant_pc : Nat → Option ℚ
  k1_both_reads_not_threshold_by_contaminant_pc : Nat → Option ℚ
  k1_either_read_not_threshold_by_contaminant_pc : Nat → Option ℚ
  threshold_passed_reads_unique_by_contaminant_pc : Nat → Option ℚ
  k1_both_reads_not_threshold_unique_by_contaminant_pc : Nat → Option ℚ
  k1_either_read_not_threshold_unique_by_contaminant_pc : Nat → Option ℚ
  contaminant_kmers_seen_pc : Nat → Option ℚ

/-- `kmer_stats_both_reads_initialise` on a freshly `calloc`ed block:
everything zero, `filter_read = false`, percentage doubles `0.0`. -/
def kmer_stats_both_reads_initialise : KmerStatsBothReads where
  number_of_reads := 0
  threshold_passed_reads := 0
  k1_both_reads_not_threshold := 0
  k1_either_read_not_threshold := 0
  threshold_passed_reads_unique := 0
  k1_both_reads_not_threshold_unique := 0
  k1_either_read_not_threshold_unique := 0
  threshold_passed_reads_by_contaminant := fun _ => 0
  k1_both_reads_not_threshold_by_contaminant := fun _ => 0
  k1_either_read_not_threshold_by_contaminant := fun _ => 0
  threshold_passed_reads_unique_by_contaminant := fun _ => 0
  k1_both_reads_not_threshold_unique_by_contaminant := fun _ => 0
  k1_either_read_not_threshold_unique_by_contaminant := fun _ => 0
  contaminant_kmers_seen := fun _ => 0
  filter_read := false
  threshold_passed_reads_pc := some 0
  k1_both_reads_not_threshold_pc := some 0
  k1_either_read_not_threshold_pc := some 0
  threshold_passed_reads_pc_unique := some 0
  k1_both_reads_not_threshold_pc_unique := some 0
  k1_either_read_not_threshold_pc_unique := some 0
  threshold_passed_reads_by_contaminant_pc := fun _ => some 0
  k1_both_reads_not_threshold_by_contaminant_pc := fun _ => some 0
  k1_either_read_not_threshold_by_contaminant_pc := fun _ => some 0
  threshold_passed_reads_unique_by_contaminant_pc := fun _ => some 0
  k1_both_reads_not_threshold_unique_by_contaminant_pc := fun _ => some 0
  k1_either_read_not_threshold_unique_by_contaminant_pc := fun _ => some 0
  contaminant_kmers_seen_pc := fun _ => some 0

/-- Loop state of one tier (all-kmers, or unique-kmers) of the scan in
`update_stats_for_both` (locals `threshold_met`, `largest_kmers`,
`largest_contaminant`, `one_in_both`, `one_in_either`; the unique tier's
copies have the same shape). -/
structure BothScanState where
  threshold_met : Bool
  largest_kmers : Nat
  largest_contaminant : Nat
  one_in_both : Nat
  one_in_either : Nat

/-- One iteration of the `update_stats_for_both` loop for one tier, with
`a = ca i`, `b = cb i`, `t = a + b` (C comparisons `a >= thrR`, `b >= thrR`,
`t >= thrO`, `t > largest_kmers`, `one_in_both == 0`). -/
def both_scan_step (thrR thrO : Nat) (ca cb : Nat → Nat)
    (s : BothScanState) (i : Nat) : BothScanState :=
  let a := ca i
  let b := cb i
  let t := a + b
  if thrR ≤ a ∧ thrR ≤ b ∧ thrO ≤ t then
    let s1 := if s.largest_kmers < t then { s with largest_kmers := t, largest_contaminant := i } else s
    { s1 with threshold_met := true }
  else if s.threshold_met = false then
    if 1 ≤ a ∧ 1 ≤ b then
      let s1 := { s with one_in_both := s.one_in_both + 1 }
      if s1.largest_kmers < t then { s1 with largest_kmers := t, largest_contaminant := i } else s1
    else if (1 ≤ a ∧ b = 0) ∨ (a = 0 ∧ 1 ≤ b) then
      let s1 := { s with one_in_either := s.one_in_either + 1 }
      if s1.one_in_both = 0 then
        if s1.largest_kmers < t then { s1 with largest_kmers := t, largest_contaminant := i } else s1
      else s1
    else s
  else s

/-- The complete scan of one tier over contaminants `0..n-1` starting from
the zeroed locals. -/
def both_scan (thrR thrO : Nat) (ca cb : Nat → Nat) (n : Nat) : BothScanState :=
  (List.range n).foldl (both_scan_step thrR thrO ca cb) ⟨false, 0, 0, 0, 0⟩

/-- One iteration of the interleaved loop of `update_stats_for_both`: the
all-kmers tier state and the unique-kmers tier state are updated side by
side (they share no variables in the C body). -/
def both_pair_step (cmd_line : CmdLine) (counts_a counts_b : KmerCounts)
    (s : BothScanState × BothScanState) (i : Nat) : BothScanState × BothScanState :=
  (both_scan_step cmd_line.kmer_threshold_read cmd_line.kmer_threshold_overall
      counts_a.kmers_from_contaminant counts_b.kmers_from_contaminant s.1 i,
   both_scan_step cmd_line.kmer_threshold_read cmd_line.kmer_threshold_overall
      counts_a.unique_kmers_from_contaminant counts_b.unique_kmers_from_contaminant s.2 i)

/-- `update_stats_for_both` (serial variant): scans, then the raw-tier
precedence chain, then the unique-tier chain, and returns `filter_read`
together with the updated `stats->both_reads` block. -/
def update_stats_for_both (cmd_line : CmdLine) (n_contaminants : Nat)
    (counts_a counts_b : KmerCounts) (st : KmerStatsBothReads) : Bool × KmerStatsBothReads :=
  let p := (List.range n_contaminants).foldl (both_pair_step cmd_line counts_a counts_b)
             (⟨false, 0, 0, 0, 0⟩, ⟨false, 0, 0, 0, 0⟩)
  let s := p.1
  let u := p.2
  let filter0 : Bool := false
  let st1 :=
    if s.threshold_met then
      { st with threshold_passed_reads := st.threshold_passed_reads + 1,
                threshold_passed_reads_by_contaminant := bump st.threshold_passed_reads_by_contaminant s.largest_contaminant }
    else if 0 < s.one_in_both then
      { st with k1_both_reads_not_threshold := st.k1_both_reads_not_threshold + 1,
                k1_both_reads_not_threshold_by_contaminant := bump st.k1_both_reads_not_threshold_by_contaminant s.largest_contaminant }
    else if 0 < s.one_in_either then
      { st with k1_either_read_not_threshold := st.k1_either_read_not_threshold + 1,
                k1_either_read_not_threshold_by_contaminant := bump st.k1_either_read_not_threshold_by_contaminant s.largest_contaminant }
    else st
  let filter1 : Bool :=
    if s.threshold_met then (if cmd_line.filter_unique = false then true else filter0) else filter0
  let st2 :=
    if u.threshold_met then
      { st1 with threshold_passed_reads_unique := st1.threshold_passed_reads_unique + 1,
                 threshold_passed_reads_unique_by_contaminant := bump st1.threshold_passed_reads_unique_by_contaminant u.largest_contaminant }
    else if 0 < u.one_in_both then
      { st1 with k1_both_reads_not_threshold_unique := st1.k1_both_reads_not_threshold_unique + 1,
                 k1_both_reads_not_threshold_unique_by_contaminant := bump st1.k1_both_reads_not_threshold_unique_by_contaminant u.largest_contaminant }
    else if 0 < u.one_in_either then
      { st1 with k1_either_read_not_threshold_unique := st1.k1_either_read_not_threshold_unique + 1,
                 k1_either_read_not_threshold_unique_by_contaminant := bump st1.k1_either_read_not_threshold_unique_by_contaminant u.largest_contaminant }
    else st1
  let filter2 : Bool := if u.threshold_met then true else filter1
  (filter2, st2)

/-- `update_stats_for_both_parallel`: identical decision logic with the
counter updates inside `pthread_mutex_lock`/`unlock` critical sections that
vanish in a sequential embedding. -/
def update_stats_for_both_parallel (cmd_line : CmdLine) (n_contaminants : Nat)
    (counts_a counts_b : KmerCounts) (st : KmerStatsBothReads) : Bool × KmerStatsBothReads :=
  let p := (List.range n_contaminants).foldl (both_pair_step cmd_line counts_a counts_b)
             (⟨false, 0, 0, 0, 0⟩, ⟨false, 0, 0, 0, 0⟩)
  let s := p.1
  let u := p.2
  let filter0 : Bool := false
  let st1 :=
    if s.threshold_met then
      { st with threshold_passed_reads := st.threshold_passed_reads + 1,
                threshold_passed_reads_by_contaminant := bump st.threshold_passed_reads_by_contaminant s.largest_contaminant }
    else if 0 < s.one_in_both then
      { st with k1_both_reads_not_threshold := st.k1_both_reads_not_threshold + 1,
                k1_both_reads_not_threshold_by_contaminant := bump st.k1_both_reads_not_threshold_by_contaminant s.largest_contaminant }
    else if 0 < s.one_in_either then
      { st with k1_either_read_not_threshold := st.k1_either_read_not_threshold + 1,
                k1_either_read_not_threshold_by_contaminant := bump st.k1_either_read_not_threshold_by_contaminant s.largest_contaminant }
    else st
  let filter1 : Bool :=
    if s.threshold_met then (if cmd_line.filter_unique = false then true else filter0) else filter0
  let st2 :=
    if u.threshold_met then
      { st1 with threshold_passed_reads_unique := st1.threshold_passed_reads_unique + 1,
                 threshold_passed_reads_unique_by_contaminant := bump st1.threshold_passed_reads_unique_by_contaminant u.largest_contaminant }
    else if 0 < u.one_in_both then
      { st1 with k1_both_reads_not_threshold_unique := st1.k1_both_reads_not_threshold_unique + 1,
                 k1_both_reads_not_threshold_unique_by_contaminant := bump st1.k1_both_reads_not_threshold_unique_by_contaminant u.largest_contaminant }
    else if 0 < u.one_in_either then
      { st1 with k1_either_read_not_threshold_unique := st1.k1_either_read_not_threshold_unique + 1,
                 k1_either_read_not_threshold_unique_by_contaminant := bump st1.k1_either_read_not_threshold_unique_by_contaminant u.largest_contaminant }
    else st1
  let filter2 : Bool := if u.threshold_met then true else filter1
  (filter2, st2)

example :
    ((update_stats_for_both ⟨2, 4, false⟩ 2
        ⟨20, (fun i => if i = 0 then 10 else 2), (fun _ => 0), 2⟩
        ⟨20, (fun i => if i = 0 then 1 else 2), (fun _ => 0), 2⟩
        kmer_stats_both_reads_initialise).2.threshold_passed_reads_by_contaminant 0,
     (update_stats_for_both ⟨2, 4, false⟩ 2
        ⟨20, (fun i => if i = 0 then 10 else 2), (fun _ => 0), 2⟩
        ⟨20, (fun i => if i = 0 then 1 else 2), (fun _ => 2), 2⟩
        kmer_stats_both_reads_initialise).1) = (1, true) := by decide

/-- The C expression `(100.0 * (double)num) / (double)den`: exact value as a
rational when `den ≠ 0`, and `none` when the C code divides by zero
(producing an IEEE NaN/inf division artifact). -/
def pc_of (num den : Nat) : Option ℚ :=
  if den = 0 then none else some ((100 * (num : ℚ)) / (den : ℚ))

/-- Pointwise update of a percentage array field. -/
def setAt (f : Nat → Option ℚ) (i : Nat) (v : Option ℚ) : Nat → Option ℚ :=
  fun j => if j = i then v else f j

/-- One iteration of the per-contaminant loop of `kmer_stats_calculate_read`
(the `species_unclassified` branch sits inside this loop in the C source;
note that its else-arm zeroes the raw `species_unclassified` count instead
of the derived rate). -/
def calculate_read_step (contaminant_kmers : Nat → Nat)
    (read : KmerStatsReadCounts) (i : Nat) : KmerStatsReadCounts :=
  let r1 := { read with
      k1_contaminated_reads_by_contaminant_pc := setAt read.k1_contaminated_reads_by_contaminant_pc i (pc_of (read.k1_contaminated_reads_by_contaminant i) read.number_of_reads),
      k1_unique_contaminated_reads_by_contaminant_pc := setAt read.k1_unique_contaminated_reads_by_contaminant_pc i (pc_of (read.k1_unique_contaminated_reads_by_contaminant i) read.number_of_reads),
      kn_contaminated_reads_by_contaminant_pc := setAt read.kn_contaminated_reads_by_contaminant_pc i (pc_of (read.kn_contaminated_reads_by_contaminant i) read.number_of_reads),
      kn_unique_contaminated_reads_by_contaminant_pc := setAt read.kn_unique_contaminated_reads_by_contaminant_pc i (pc_of (read.kn_unique_contaminated_reads_by_contaminant i) read.number_of_reads),
      contaminant_kmers_seen_pc := setAt read.contaminant_kmers_seen_pc i (pc_of (read.contaminant_kmers_seen i) (contaminant_kmers i)) }
  let r2 :=
    if 0 < r1.species_read_counts i then
      { r1 with species_read_counts_pc := setAt r1.species_read_counts_pc i (pc_of (r1.species_read_counts i) r1.number_of_reads) }
    else
      { r1 with species_read_counts_pc := setAt r1.species_read_counts_pc i (some 0) }
  if 0 < r2.species_unclassified then
    { r2 with species_unclassified_pc := pc_of r2.species_unclassified r2.number_of_reads }
  else
    { r2 with species_unclassified := 0 }

/-- `kmer_stats_calculate_read`: derives every percentage field of one
`KmerStatsReadCounts` block.  `stats->contaminant_kmers` is passed as
`contaminant_kmers` and `stats->n_contaminants` as `n`.  Every division uses
`pc_of`, i.e. the C code divides unconditionally by `number_of_reads`
(respectively `contaminant_kmers[i]`). -/
def kmer_stats_calculate_read (n : Nat) (contaminant_kmers : Nat → Nat)
    (read : KmerStatsReadCounts) : KmerStatsReadCounts :=
  let r0 := { read with
      k1_contaminaned_reads_pc := pc_of read.k1_contaminated_reads read.number_of_reads,
      kn_contaminaned_reads_pc := pc_of read.kn_contaminated_reads read.number_of_reads }
  (List.range n).foldl (calculate_read_step contaminant_kmers) r0

/-- One iteration of the per-contaminant loop of `kmer_stats_calculate_both`. -/
def calculate_both_step (contaminant_kmers : Nat → Nat)
    (b : KmerStatsBothReads) (i : Nat) : KmerStatsBothReads :=
  { b with
      contaminant_kmers_seen_pc := setAt b.contaminant_kmers_seen_pc i (pc_of (b.contaminant_kmers_seen i) (contaminant_kmers i)),
      threshold_passed_reads_by_contaminant_pc := setAt b.threshold_passed_reads_by_contaminant_pc i (pc_of (b.threshold_passed_reads_by_contaminant i) b.number_of_reads),
      k1_both_reads_not_threshold_by_contaminant_pc := setAt b.k1_both_reads_not_threshold_by_contaminant_pc i (pc_of (b.k1_both_reads_not_threshold_by_contaminant i) b.number_of_reads),
      k1_either_read_not_threshold_by_contaminant_pc := setAt b.k1_either_read_not_threshold_by_contaminant_pc i (pc_of (b.k1_either_read_not_threshold_by_contaminant i) b.number_of_reads),
      threshold_passed_reads_unique_by_contaminant_pc := setAt b.threshold_passed_reads_unique_by_contaminant_pc i (pc_of (b.threshold_passed_reads_unique_by_contaminant i) b.number_of_reads),
      k1_both_reads_not_threshold_unique_by_contaminant_pc := setAt b.k1_both_reads_not_threshold_unique_by_contaminant_pc i (pc_of (b.k1_both_reads_not_threshold_unique_by_contaminant i) b.number_of_reads),
      k1_either_read_not_threshold_unique_by_contaminant_pc := setAt b.k1_either_read_not_threshold_unique_by_contaminant_pc i (pc_of (b.k1_either_read_not_threshold_unique_by_contaminant i) b.number_of_reads) }

/-- `kmer_stats_calculate_both`: derives the pair-level percentages, every
one divided by `both_reads->number_of_reads` via `pc_of`. -/
def kmer_stats_calculate_both (n : Nat) (contaminant_kmers : Nat → Nat)
    (b0 : KmerStatsBothReads) : KmerStatsBothReads :=
  let b := { b0 with
      threshold_passed_reads_pc := pc_of b0.threshold_passed_reads b0.number_of_reads,
      k1_both_reads_not_threshold_pc := pc_of b0.k1_both_reads_not_threshold b0.number_of_reads,
      k1_either_read_not_threshold_pc := pc_of b0.k1_either_read_not_threshold b0.number_of_reads,
      threshold_passed_reads_pc_unique := pc_of b0.threshold_passed_reads_unique b0.number_of_reads,
      k1_both_reads_not_threshold_pc_unique := pc_of b0.k1_both_reads_not_threshold_unique b0.number_of_reads,
      k1_either_read_not_threshold_pc_unique := pc_of b0.k1_either_read_not_threshold_unique b0.number_of_reads }
  (List.range n).foldl (calculate_both_step contaminant_kmers) b

/-- The four similarity output files of
`kmer_stats_compare_contaminant_kmers`, in the order the C code opens them
(filenames shown without the run's output prefix). -/
def similarity_files : List String :=
  ["kmer_similarity_absolute.txt", "kmer_similarity_pc.txt",
   "kmer_unique_absolute.txt", "kmer_unique_pc.txt"]

/-- Control-flow model of `kmer_stats_compare_contaminant_kmers`.  `openOk`
says whether `fopen` succeeds for a given output file; `some files` means
the function runs to completion having written `files`, `none` models
`exit(1)`.  The C body returns immediately when `n_contaminants < 2`;
otherwise it opens the four files in order and calls `exit(1)` at the first
`fopen` failure (allocation failure, also fatal, is assumed absent here). -/
def kmer_stats_compare_contaminant_kmers (n_contaminants : Nat)
    (openOk : String → Bool) : Option (List String) :=
  if n_contaminants < 2 then some []
  else if openOk "kmer_similarity_absolute.txt" = false then none
  else if openOk "kmer_similarity_pc.txt" = false then none
  else if openOk "kmer_unique_absolute.txt" = false then none
  else if openOk "kmer_unique_pc.txt" = false then none
  else some similarity_files

/-- The three progress files written for mate `r` (0-based) by
`kmer_stats_write_progress`. -/
def progress_files (r : Nat) : List String :=
  ["data_overall_r" ++ toString (r + 1) ++ ".txt",
   "data_per_contaminant_r" ++ toString (r + 1) ++ ".txt",
   "largest_contaminant_r" ++ toString (r + 1) ++ ".txt"]

/-- Control-flow model of `kmer_stats_write_progress`: for each mate it
tries the three progress files in order; a file whose `fopen` succeeds is
written, a failure is logged (`printf`) and that file alone is skipped.
The function itself never terminates the run: it returns the pair
(written files, logged failures). -/
def kmer_stats_write_progress (number_of_files : Nat)
    (openOk : String → Bool) : List String × List String :=
  (List.range number_of_files).foldl
    (fun acc r =>
      (acc.1 ++ (progress_files r).filter (fun f => openOk f),
       acc.2 ++ (progress_files r).filter (fun f => openOk f = false)))
    ([], [])

/-- `m[i][j]++` on the co-occurrence matrix. -/
def bump2 (m : Nat → Nat → Nat) (i j : Nat) : Nat → Nat → Nat :=
  fun p q => if p = i ∧ q = j then m p q + 1 else m p q

/-- Inner loop body of `check_kmers_in_common` (`for (j=i; j<n; j++)`):
when contaminant bit `j` is set, increment `[i][j]` and, if `i != j`,
mirror to `[j][i]`. -/
def kic_inner (node : Nat → Bool) (i : Nat) (m : Nat → Nat → Nat) (j : Nat) :
    Nat → Nat → Nat :=
  if node j then
    let m1 := bump2 m i j
    if i = j then m1 else bump2 m1 j i
  else m

/-- Outer loop body of `check_kmers_in_common`: when bit `i` is set, run the
inner loop over `j = i, …, n-1`. -/
def kic_outer (n : Nat) (node : Nat → Bool) (m : Nat → Nat → Nat) (i : Nat) :
    Nat → Nat → Nat :=
  if node i then (List.range' i (n - i)).foldl (kic_inner node i) m else m

/-- `check_kmers_in_common`: the per-k-mer visitor that accumulates the
co-occurrence matrix from one k-mer's contaminant-membership bitset
(`element_get_contaminant_bit`, an external collaborator, is the bitset
function `node`). -/
def check_kmers_in_common (n : Nat) (node : Nat → Bool)
    (m : Nat → Nat → Nat) : Nat → Nat → Nat :=
  (List.range n).foldl (kic_outer n node) m

/-- The counting loop of `check_unique_kmers` with its early `break`:
carries `(count, index)`; on a set bit records the index, increments the
count and stops as soon as the count exceeds 1. -/
def cuk_loop (node : Nat → Bool) : List Nat → Nat → Nat → Nat × Nat
  | [], count, index => (count, index)
  | i :: rest, count, index =>
    if node i then
      if 1 < count + 1 then (count + 1, i)
      else cuk_loop node rest (count + 1) i
    else cuk_loop node rest count index

/-- `check_unique_kmers`: the per-k-mer visitor that increments the
unique-k-mer counter of contaminant `index` when exactly one membership bit
is set. -/
def check_unique_kmers (n : Nat) (node : Nat → Bool) (u : Nat → Nat) : Nat → Nat :=
  let ci := cuk_loop node (List.range n) 0 0
  if ci.1 = 1 then bump u ci.2 else u

/-- Modelled from the spec: `hash_table_traverse_with_data`, the external
iteration primitive, visits every distinct stored k-mer once with its
contaminant-membership bitset.  The table is modelled as the list of those
bitsets; the traversal with `check_kmers_in_common` starting from the
zeroed matrix of `kmer_stats_initialise`. -/
def scan_kmers_in_common (n : Nat) (table : List (Nat → Bool)) : Nat → Nat → Nat :=
  table.foldl (fun m node => check_kmers_in_common n node m) (fun _ _ => 0)

/-- Modelled from the spec: the second traversal, with `check_unique_kmers`,
starting from the zeroed `unique_kmers` array. -/
def scan_unique_kmers (n : Nat) (table : List (Nat → Bool)) : Nat → Nat :=
  table.foldl (fun u node => check_unique_kmers n node u) (fun _ => 0)

example :
    (scan_kmers_in_common 2 [fun i => i == 0, fun i => i == 0 || i == 1, fun i => i == 1] 0 0,
     scan_kmers_in_common 2 [fun i => i == 0, fun i => i == 0 || i == 1, fun i => i == 1] 0 1,
     scan_kmers_in_common 2 [fun i => i == 0, fun i => i == 0 || i == 1, fun i => i == 1] 1 0,
     scan_kmers_in_common 2 [fun i => i == 0, fun i => i == 0 || i == 1, fun i => i == 1] 1 1,
     scan_unique_kmers 2 [fun i => i == 0, fun i => i == 0 || i == 1, fun i => i == 1] 0,
     scan_unique_kmers 2 [fun i => i == 0, fun i => i == 0 || i == 1, fun i => i == 1] 1)
    = (2, 1, 1, 2, 1, 1) := by decide

/-- A `foldl` whose step acts componentwise on a pair is the pair of the
component `foldl`s. -/
lemma foldl_pair_split {α β ι : Type} (f : α → ι → α) (g : β → ι → β) :
    ∀ (l : List ι) (x : α) (y : β),
      l.foldl (fun p i => (f p.1 i, g p.2 i)) (x, y) = (l.foldl f x, l.foldl g y) := by
  intro l
  induction l with
  | nil => intro x y; rfl
  | cons i l ih => intro x y; exact ih (f x i) (g y i)

/-- The all-kmers tier scan of `update_stats_for_both`, as a function of the
configuration and the two mates' counts. -/
def raw_scan (cmd_line : CmdLine) (counts_a counts_b : KmerCounts) (n : Nat) : BothScanState :=
  both_scan cmd_line.kmer_threshold_read cmd_line.kmer_threshold_overall
    counts_a.kmers_from_contaminant counts_b.kmers_from_contaminant n

/-- The unique-kmers tier scan of `update_stats_for_both`. -/
def unique_scan (cmd_line : CmdLine) (counts_a counts_b : KmerCounts) (n : Nat) : BothScanState :=
  both_scan cmd_line.kmer_threshold_read cmd_line.kmer_threshold_overall
    counts_a.unique_kmers_from_contaminant counts_b.unique_kmers_from_contaminant n

/-- The interleaved loop of `update_stats_for_both` computes exactly the two
independent tier scans. -/
lemma both_fold_eq (cmd_line : CmdLine) (counts_a counts_b : KmerCounts) (n : Nat) :
    (List.range n).foldl (both_pair_step cmd_line counts_a counts_b)
        (⟨false, 0, 0, 0, 0⟩, ⟨false, 0, 0, 0, 0⟩)
      = (raw_scan cmd_line counts_a counts_b n, unique_scan cmd_line counts_a counts_b n) := by
  unfold raw_scan unique_scan both_scan both_pair_step
  exact foldl_pair_split _ _ _ _ _

/-- **C2.** For every input applied to equal starting counter states, the
serial and the lock-protected variants are extensionally equal: the
single-read classifiers `update_stats` / `update_stats_parallel` agree on
the resulting `KmerStatsReadCounts` and both annotations, and the paired
classifiers `update_stats_for_both` / `update_stats_for_both_parallel`
agree on the resulting `KmerStatsBothReads` and the returned `filter_read`
boolean — one algorithm, two execution modes. -/
theorem claim_C2_serial_parallel_equivalent :
    update_stats = update_stats_parallel
    ∧ update_stats_for_both = update_stats_for_both_parallel :=
  ⟨rfl, rfl⟩

/-- **C5.** The boolean returned by paired classification equals
(unique tier threshold-met) OR (raw tier threshold-met AND
`filter_unique == false`), for the serial and the parallel variant alike. -/
theorem claim_C5_filter_read_formula :
    ∀ (cmd_line : CmdLine) (n : Nat) (counts_a counts_b : KmerCounts)
      (st : KmerStatsBothReads),
      (update_stats_for_both cmd_line n counts_a counts_b st).1
          = ((unique_scan cmd_line counts_a counts_b n).threshold_met
             || ((raw_scan cmd_line counts_a counts_b n).threshold_met
                 && !cmd_line.filter_unique))
      ∧ (update_stats_for_both_parallel cmd_line n counts_a counts_b st).1
          = ((unique_scan cmd_line counts_a counts_b n).threshold_met
             || ((raw_scan cmd_line counts_a counts_b n).threshold_met
                 && !cmd_line.filter_unique)) := by
  intro cmd_line n counts_a counts_b st
  have h := both_fold_eq cmd_line counts_a counts_b n
  constructor <;>
  · simp only [update_stats_for_both, update_stats_for_both_parallel, h]
    cases hu : (unique_scan cmd_line counts_a counts_b n).threshold_met <;>
      cases hs : (raw_scan cmd_line counts_a counts_b n).threshold_met <;>
        cases hf : cmd_line.filter_unique <;>
          simp [hu, hs, hf]

/-- Per-call delta of the six tier scalars of `update_stats_for_both`,
in terms of the two tier scans. -/
lemma both_update_deltas (cmd_line : CmdLine) (n : Nat)
    (counts_a counts_b : KmerCounts) (st : KmerStatsBothReads) :
    (update_stats_for_both cmd_line n counts_a counts_b st).2.threshold_passed_reads
        = st.threshold_passed_reads
          + (if (raw_scan cmd_line counts_a counts_b n).threshold_met = true then 1 else 0)
    ∧ (update_stats_for_both cmd_line n counts_a counts_b st).2.k1_both_reads_not_threshold
        = st.k1_both_reads_not_threshold
          + (if (raw_scan cmd_line counts_a counts_b n).threshold_met = false
                ∧ 0 < (raw_scan cmd_line counts_a counts_b n).one_in_both then 1 else 0)
    ∧ (update_stats_for_both cmd_line n counts_a counts_b st).2.k1_either_read_not_threshold
        = st.k1_either_read_not_threshold
          + (if (raw_scan cmd_line counts_a counts_b n).threshold_met = false
                ∧ (raw_scan cmd_line counts_a counts_b n).one_in_both = 0
                ∧ 0 < (raw_scan cmd_line counts_a counts_b n).one_in_either then 1 else 0)
    ∧ (update_stats_for_both cmd_line n counts_a counts_b st).2.threshold_passed_reads_unique
        = st.threshold_passed_reads_unique
          + (if (unique_scan cmd_line counts_a counts_b n).threshold_met = true then 1 else 0)
    ∧ (update_stats_for_both cmd_line n counts_a counts_b st).2.k1_both_reads_not_threshold_unique
        = st.k1_both_reads_not_threshold_unique
          + (if (unique_scan cmd_line counts_a counts_b n).threshold_met = false
                ∧ 0 < (unique_scan cmd_line counts_a counts_b n).one_in_both then 1 else 0)
    ∧ (update_stats_for_both cmd_line n counts_a counts_b st).2.k1_either_read_not_threshold_unique
        = st.k1_either_read_not_threshold_unique
          + (if (unique_scan cmd_line counts_a counts_b n).threshold_met = false
                ∧ (unique_scan cmd_line counts_a counts_b n).one_in_both = 0
                ∧ 0 < (unique_scan cmd_line counts_a counts_b n).one_in_either then 1 else 0) := by
  have h := both_fold_eq cmd_line counts_a counts_b n
  simp only [update_stats_for_both, h]
  rcases hs : raw_scan cmd_line counts_a counts_b n with ⟨tm, lk, lc, oib, oie⟩
  rcases hu : unique_scan cmd_line counts_a counts_b n with ⟨utm, ulk, ulc, uoib, uoie⟩
  cases tm <;> cases utm <;> simp <;> split_ifs <;> simp_all <;> omega

/-- **C3 (amended).** Per pair processed, *at most* one of the three
raw-tier counters {threshold_passed_reads, k1_both_reads_not_threshold,
k1_either_read_not_threshold} is incremented, namely along the precedence
chain threshold-met > one-in-both > one-in-either computed by the raw scan,
and likewise for the unique tier; exactly one increments if and only if the
tier's scan registered something (`threshold_met` or a positive
`one_in_both`/`one_in_either` tally) — for a pair registering nothing at a
tier (e.g. no hits at all under positive thresholds), no counter of that
tier is incremented. -/
theorem claim_C3_tier_increment_dichotomy :
    ∀ (cmd_line : CmdLine) (n : Nat) (counts_a counts_b : KmerCounts)
      (st : KmerStatsBothReads),
      (update_stats_for_both cmd_line n counts_a counts_b st).2.threshold_passed_reads
          + (update_stats_for_both cmd_line n counts_a counts_b st).2.k1_both_reads_not_threshold
          + (update_stats_for_both cmd_line n counts_a counts_b st).2.k1_either_read_not_threshold
        = st.threshold_passed_reads + st.k1_both_reads_not_threshold
          + st.k1_either_read_not_threshold
          + (if (raw_scan cmd_line counts_a counts_b n).threshold_met = true
                ∨ 0 < (raw_scan cmd_line counts_a counts_b n).one_in_both
                ∨ 0 < (raw_scan cmd_line counts_a counts_b n).one_in_either then 1 else 0)
      ∧ (update_stats_for_both cmd_line n counts_a counts_b st).2.threshold_passed_reads_unique
          + (update_stats_for_both cmd_line n counts_a counts_b st).2.k1_both_reads_not_threshold_unique
          + (update_stats_for_both cmd_line n counts_a counts_b st).2.k1_either_read_not_threshold_unique
        = st.threshold_passed_reads_unique + st.k1_both_reads_not_threshold_unique
          + st.k1_either_read_not_threshold_unique
          + (if (unique_scan cmd_line counts_a counts_b n).threshold_met = true
                ∨ 0 < (unique_scan cmd_line counts_a counts_b n).one_in_both
                ∨ 0 < (unique_scan cmd_line counts_a counts_b n).one_in_either then 1 else 0)
      ∧ (update_stats_for_both cmd_line n counts_a counts_b st).2.threshold_passed_reads
          = st.threshold_passed_reads
            + (if (raw_scan cmd_line counts_a counts_b n).threshold_met = true then 1 else 0)
      ∧ (update_stats_for_both cmd_line n counts_a counts_b st).2.k1_both_reads_not_threshold
          = st.k1_both_reads_not_threshold
            + (if (raw_scan cmd_line counts_a counts_b n).threshold_met = false
                  ∧ 0 < (raw_scan cmd_line counts_a counts_b n).one_in_both then 1 else 0)
      ∧ (update_stats_for_both cmd_line n counts_a counts_b st).2.k1_either_read_not_threshold
          = st.k1_either_read_not_threshold
            + (if (raw_scan cmd_line counts_a counts_b n).threshold_met = false
                  ∧ (raw_scan cmd_line counts_a counts_b n).one_in_both = 0
                  ∧ 0 < (raw_scan cmd_line counts_a counts_b n).one_in_either then 1 else 0)
      ∧ (update_stats_for_both cmd_line n counts_a counts_b st).2.threshold_passed_reads_unique
          = st.threshold_passed_reads_unique
            + (if (unique_scan cmd_line counts_a counts_b n).threshold_met = true then 1 else 0)
      ∧ (update_stats_for_both cmd_line n counts_a counts_b st).2.k1_both_reads_not_threshold_unique
          = st.k1_both_reads_not_threshold_unique
            + (if (unique_scan cmd_line counts_a counts_b n).threshold_met = false
                  ∧ 0 < (unique_scan cmd_line counts_a counts_b n).one_in_both then 1 else 0)
      ∧ (update_stats_for_both cmd_line n counts_a counts_b st).2.k1_either_read_not_threshold_unique
          = st.k1_either_read_not_threshold_unique
            + (if (unique_scan cmd_line counts_a counts_b n).threshold_met = false
                  ∧ (unique_scan cmd_line counts_a counts_b n).one_in_both = 0
                  ∧ 0 < (unique_scan cmd_line counts_a counts_b n).one_in_either then 1 else 0) := by
  intro cmd_line n counts_a counts_b st
  obtain ⟨h1, h2, h3, h4, h5, h6⟩ := both_update_deltas cmd_line n counts_a counts_b st
  refine ⟨?_, ?_, h1, h2, h3, h4, h5, h6⟩ <;>
  · simp only [h1, h2, h3, h4, h5, h6]
    split_ifs <;> simp_all <;> omega

/-- **C3** is false as stated: for the zero-hit pair below (one contaminant,
both thresholds 1), `update_stats_for_both` increments *none* of the three
raw-tier counters and none of the three unique-tier counters — the pair is
processed, yet no "exactly one" increment happens in either tier. -/
theorem claim_C3_counterexample :
    ((update_stats_for_both ⟨1, 1, false⟩ 1
        ⟨10, fun _ => 0, fun _ => 0, 0⟩ ⟨10, fun _ => 0, fun _ => 0, 0⟩
        kmer_stats_both_reads_initialise).2.threshold_passed_reads,
     (update_stats_for_both ⟨1, 1, false⟩ 1
        ⟨10, fun _ => 0, fun _ => 0, 0⟩ ⟨10, fun _ => 0, fun _ => 0, 0⟩
        kmer_stats_both_reads_initialise).2.k1_both_reads_not_threshold,
     (update_stats_for_both ⟨1, 1, false⟩ 1
        ⟨10, fun _ => 0, fun _ => 0, 0⟩ ⟨10, fun _ => 0, fun _ => 0, 0⟩
        kmer_stats_both_reads_initialise).2.k1_either_read_not_threshold,
     (update_stats_for_both ⟨1, 1, false⟩ 1
        ⟨10, fun _ => 0, fun _ => 0, 0⟩ ⟨10, fun _ => 0, fun _ => 0, 0⟩
        kmer_stats_both_reads_initialise).2.threshold_passed_reads_unique,
     (update_stats_for_both ⟨1, 1, false⟩ 1
        ⟨10, fun _ => 0, fun _ => 0, 0⟩ ⟨10, fun _ => 0, fun _ => 0, 0⟩
        kmer_stats_both_reads_initialise).2.k1_both_reads_not_threshold_unique,
     (update_stats_for_both ⟨1, 1, false⟩ 1
        ⟨10, fun _ => 0, fun _ => 0, 0⟩ ⟨10, fun _ => 0, fun _ => 0, 0⟩
        kmer_stats_both_reads_initialise).2.k1_either_read_not_threshold_unique)
      = (0, 0, 0, 0, 0, 0) := by decide

/-- `update_stats_for_both` never touches `number_of_reads`. -/
lemma both_update_nreads (cmd_line : CmdLine) (n : Nat)
    (counts_a counts_b : KmerCounts) (st : KmerStatsBothReads) :
    (update_stats_for_both cmd_line n counts_a counts_b st).2.number_of_reads
      = st.number_of_reads := by
  simp only [update_stats_for_both]
  split_ifs <;> rfl

/-- The per-contaminant loop of `kmer_stats_calculate_both` touches neither
`number_of_reads` nor the scalar percentage fields. -/
lemma calculate_both_fold_frame (contaminant_kmers : Nat → Nat) :
    ∀ (l : List Nat) (b : KmerStatsBothReads),
      (l.foldl (calculate_both_step contaminant_kmers) b).number_of_reads = b.number_of_reads
      ∧ (l.foldl (calculate_both_step contaminant_kmers) b).threshold_passed_reads_pc
          = b.threshold_passed_reads_pc := by
  intro l
  induction l with
  | nil => intro b; exact ⟨rfl, rfl⟩
  | cons i l ih =>
      intro b
      exact (ih (calculate_both_step contaminant_kmers b i))

/-- **C10.** Neither `update_stats_for_both` nor
`update_stats_for_both_parallel` ever modifies `number_of_reads` of the
`KmerStatsBothReads` block: it is 0 after `kmer_stats_both_reads_initialise`
and stays 0 across any sequence of pair classifications — yet
`kmer_stats_calculate_both` uses exactly this field as the denominator of
every pair-level percentage (shown here for `threshold_passed_reads_pc`,
whose value is `pc_of numerator number_of_reads`). -/
theorem claim_C10_pair_number_of_reads_never_updated :
    ∀ (cmd_line : CmdLine) (n : Nat) (counts_a counts_b : KmerCounts)
      (st : KmerStatsBothReads) (pairs : List (KmerCounts × KmerCounts))
      (contaminant_kmers : Nat → Nat),
      (update_stats_for_both cmd_line n counts_a counts_b st).2.number_of_reads
          = st.number_of_reads
      ∧ (update_stats_for_both_parallel cmd_line n counts_a counts_b st).2.number_of_reads
          = st.number_of_reads
      ∧ kmer_stats_both_reads_initialise.number_of_reads = 0
      ∧ (pairs.foldl
            (fun b p => (update_stats_for_both cmd_line n p.1 p.2 b).2)
            kmer_stats_both_reads_initialise).number_of_reads = 0
      ∧ (kmer_stats_calculate_both n contaminant_kmers st).threshold_passed_reads_pc
          = pc_of st.threshold_passed_reads st.number_of_reads := by
  intro cmd_line n counts_a counts_b st pairs contaminant_kmers
  refine ⟨both_update_nreads cmd_line n counts_a counts_b st, ?_, rfl, ?_, ?_⟩
  · have : update_stats_for_both_parallel = update_stats_for_both := rfl
    rw [this]
    exact both_update_nreads cmd_line n counts_a counts_b st
  · have key : ∀ (l : List (KmerCounts × KmerCounts)) (b : KmerStatsBothReads),
        (l.foldl (fun b p => (update_stats_for_both cmd_line n p.1 p.2 b).2) b).number_of_reads
          = b.number_of_reads := by
      intro l
      induction l with
      | nil => intro b; rfl
      | cons p l ih =>
          intro b
          rw [List.foldl_cons, ih, both_update_nreads]
    exact key pairs kmer_stats_both_reads_initialise
  · simp only [kmer_stats_calculate_both]
    exact (calculate_both_fold_frame contaminant_kmers (List.range n) _).2

/-- Fields of the counter block that the first `update_stats` loop never
touches (it only bumps the two k1 by-contaminant arrays and tracks the
running maxima). -/
lemma k1_fold_frame (counts : KmerCounts) :
    ∀ (l : List Nat) (s : K1ScanState),
      (l.foldl (k1_scan_step counts) s).rc.number_of_reads = s.rc.number_of_reads
      ∧ (l.foldl (k1_scan_step counts) s).rc.reads_unclassified = s.rc.reads_unclassified
      ∧ (l.foldl (k1_scan_step counts) s).rc.reads_with_highest_contaminant
          = s.rc.reads_with_highest_contaminant
      ∧ (l.foldl (k1_scan_step counts) s).rc.kn_contaminated_reads = s.rc.kn_contaminated_reads
      ∧ (l.foldl (k1_scan_step counts) s).rc.kn_contaminated_reads_by_contaminant
          = s.rc.kn_contaminated_reads_by_contaminant
      ∧ (l.foldl (k1_scan_step counts) s).rc.k1_contaminated_reads = s.rc.k1_contaminated_reads := by
  intro l
  induction l with
  | nil => intro s; exact ⟨rfl, rfl, rfl, rfl, rfl, rfl⟩
  | cons j l ih =>
      intro s
      have hstep :
          (k1_scan_step counts s j).rc.number_of_reads = s.rc.number_of_reads
          ∧ (k1_scan_step counts s j).rc.reads_unclassified = s.rc.reads_unclassified
          ∧ (k1_scan_step counts s j).rc.reads_with_highest_contaminant
              = s.rc.reads_with_highest_contaminant
          ∧ (k1_scan_step counts s j).rc.kn_contaminated_reads = s.rc.kn_contaminated_reads
          ∧ (k1_scan_step counts s j).rc.kn_contaminated_reads_by_contaminant
              = s.rc.kn_contaminated_reads_by_contaminant
          ∧ (k1_scan_step counts s j).rc.k1_contaminated_reads = s.rc.k1_contaminated_reads := by
        simp only [k1_scan_step]
        split_ifs <;> simp
      obtain ⟨h1, h2, h3, h4, h5, h6⟩ := ih (k1_scan_step counts s j)
      exact ⟨h1.trans hstep.1, h2.trans hstep.2.1, h3.trans hstep.2.2.1,
             h4.trans hstep.2.2.2.1, h5.trans hstep.2.2.2.2.1, h6.trans hstep.2.2.2.2.2⟩

/-- Fields the threshold-tier loop of `update_stats` never touches. -/
lemma kn_fold_frame (cmd_line : CmdLine) (counts : KmerCounts) :
    ∀ (l : List Nat) (rc : KmerStatsReadCounts),
      (l.foldl (kn_scan_step cmd_line counts) rc).number_of_reads = rc.number_of_reads
      ∧ (l.foldl (kn_scan_step cmd_line counts) rc).reads_unclassified = rc.reads_unclassified
      ∧ (l.foldl (kn_scan_step cmd_line counts) rc).reads_with_highest_contaminant
          = rc.reads_with_highest_contaminant
      ∧ (l.foldl (kn_scan_step cmd_line counts) rc).kn_contaminated_reads
          = rc.kn_contaminated_reads := by
  intro l
  induction l with
  | nil => intro rc; exact ⟨rfl, rfl, rfl, rfl⟩
  | cons j l ih =>
      intro rc
      have hstep :
          (kn_scan_step cmd_line counts rc j).number_of_reads = rc.number_of_reads
          ∧ (kn_scan_step cmd_line counts rc j).reads_unclassified = rc.reads_unclassified
          ∧ (kn_scan_step cmd_line counts rc j).reads_with_highest_contaminant
              = rc.reads_with_highest_contaminant
          ∧ (kn_scan_step cmd_line counts rc j).kn_contaminated_reads
              = rc.kn_contaminated_reads := by
        simp only [kn_scan_step]
        split_ifs <;> simp
      obtain ⟨h1, h2, h3, h4⟩ := ih (kn_scan_step cmd_line counts rc j)
      exact ⟨h1.trans hstep.1, h2.trans hstep.2.1, h3.trans hstep.2.2.1, h4.trans hstep.2.2.2⟩

/-- Pointwise effect of one threshold-tier iteration on the N-hit
by-contaminant array. -/
lemma kn_step_point (cmd_line : CmdLine) (counts : KmerCounts)
    (rc : KmerStatsReadCounts) (j i : Nat) :
    (kn_scan_step cmd_line counts rc j).kn_contaminated_reads_by_contaminant i
      = rc.kn_contaminated_reads_by_contaminant i
        + (if i = j ∧ cmd_line.kmer_threshold_read < counts.kmers_from_contaminant j
           then 1 else 0) := by
  simp only [kn_scan_step]
  split_ifs <;> simp_all [bump]

/-- Pointwise effect of the whole threshold-tier loop: index `i` is bumped
exactly when `i < n` and the strict comparison holds at `i`. -/
lemma kn_fold_point (cmd_line : CmdLine) (counts : KmerCounts) :
    ∀ (n : Nat) (rc : KmerStatsReadCounts) (i : Nat),
      ((List.range n).foldl (kn_scan_step cmd_line counts) rc).kn_contaminated_reads_by_contaminant i
        = rc.kn_contaminated_reads_by_contaminant i
          + (if i < n ∧ cmd_line.kmer_threshold_read < counts.kmers_from_contaminant i
             then 1 else 0) := by
  intro n
  induction n with
  | zero => intro rc i; simp
  | succ n ih =>
      intro rc i
      rw [List.range_succ, List.foldl_append, List.foldl_cons, List.foldl_nil,
          kn_step_point, ih]
      by_cases heq : i = n
      · subst heq
        by_cases hp : cmd_line.kmer_threshold_read < counts.kmers_from_contaminant i <;>
          simp [hp] <;> omega
      · have hne : ¬(i = n ∧ cmd_line.kmer_threshold_read < counts.kmers_from_contaminant n) :=
          fun h => heq h.1
        rw [if_neg hne]
        by_cases hlt : i < n
        · have h1 : i < n + 1 := by omega
          simp [hlt, h1]
        · have h1 : ¬ i < n + 1 := by omega
          simp [hlt, h1]

/-- The running raw maximum of the first loop only ever records an index
from the scanned list. -/
lemma k1_fold_largest (counts : KmerCounts) (n : Nat) :
    ∀ (l : List Nat) (s : K1ScanState), (∀ j ∈ l, j < n) →
      (0 < s.largest_kmers → s.largest_contaminant < n) →
      (0 < (l.foldl (k1_scan_step counts) s).largest_kmers →
        (l.foldl (k1_scan_step counts) s).largest_contaminant < n) := by
  intro l
  induction l with
  | nil => intro s _ h; exact h
  | cons j l ih =>
      intro s hmem h
      refine ih (k1_scan_step counts s j) (fun m hm => hmem m (List.mem_cons_of_mem j hm)) ?_
      have hj : j < n := hmem j (List.mem_cons_self j l)
      simp only [k1_scan_step]
      split_ifs <;> intro h0 <;> simp_all

lemma k1_fold_nreads (counts : KmerCounts) (l : List Nat) (s : K1ScanState) :
    (l.foldl (k1_scan_step counts) s).rc.number_of_reads = s.rc.number_of_reads :=
  (k1_fold_frame counts l s).1

lemma k1_fold_unclass (counts : KmerCounts) (l : List Nat) (s : K1ScanState) :
    (l.foldl (k1_scan_step counts) s).rc.reads_unclassified = s.rc.reads_unclassified :=
  (k1_fold_frame counts l s).2.1

lemma k1_fold_rwh (counts : KmerCounts) (l : List Nat) (s : K1ScanState) :
    (l.foldl (k1_scan_step counts) s).rc.reads_with_highest_contaminant
      = s.rc.reads_with_highest_contaminant :=
  (k1_fold_frame counts l s).2.2.1

lemma k1_fold_kn (counts : KmerCounts) (l : List Nat) (s : K1ScanState) :
    (l.foldl (k1_scan_step counts) s).rc.kn_contaminated_reads = s.rc.kn_contaminated_reads :=
  (k1_fold_frame counts l s).2.2.2.1

lemma k1_fold_kn_by (counts : KmerCounts) (l : List Nat) (s : K1ScanState) :
    (l.foldl (k1_scan_step counts) s).rc.kn_contaminated_reads_by_contaminant
      = s.rc.kn_contaminated_reads_by_contaminant :=
  (k1_fold_frame counts l s).2.2.2.2.1

lemma kn_fold_nreads (cmd_line : CmdLine) (counts : KmerCounts) (l : List Nat)
    (rc : KmerStatsReadCounts) :
    (l.foldl (kn_scan_step cmd_line counts) rc).number_of_reads = rc.number_of_reads :=
  (kn_fold_frame cmd_line counts l rc).1

lemma kn_fold_unclass (cmd_line : CmdLine) (counts : KmerCounts) (l : List Nat)
    (rc : KmerStatsReadCounts) :
    (l.foldl (kn_scan_step cmd_line counts) rc).reads_unclassified = rc.reads_unclassified :=
  (kn_fold_frame cmd_line counts l rc).2.1

lemma kn_fold_rwh (cmd_line : CmdLine) (counts : KmerCounts) (l : List Nat)
    (rc : KmerStatsReadCounts) :
    (l.foldl (kn_scan_step cmd_line counts) rc).reads_with_highest_contaminant
      = rc.reads_with_highest_contaminant :=
  (kn_fold_frame cmd_line counts l rc).2.2.1

lemma kn_fold_kn (cmd_line : CmdLine) (counts : KmerCounts) (l : List Nat)
    (rc : KmerStatsReadCounts) :
    (l.foldl (kn_scan_step cmd_line counts) rc).kn_contaminated_reads
      = rc.kn_contaminated_reads :=
  (kn_fold_frame cmd_line counts l rc).2.2.2

/-- Per-call shape of `update_stats`: there are values `lk`, `lc` of the
locals `largest_kmers`, `largest_contaminant` after the first loop such
that the assignment step and its effect on `reads_unclassified` /
`reads_with_highest_contaminant` / `number_of_reads` are as in the source. -/
lemma k1_phase_nreads (counts : KmerCounts) (n : Nat) (rcA : KmerStatsReadCounts) :
    (k1_phase counts n rcA).rc.number_of_reads = rcA.number_of_reads := by
  simp only [k1_phase]
  split_ifs <;> simp [k1_fold_nreads]

lemma k1_phase_unclass (counts : KmerCounts) (n : Nat) (rcA : KmerStatsReadCounts) :
    (k1_phase counts n rcA).rc.reads_unclassified = rcA.reads_unclassified := by
  simp only [k1_phase]
  split_ifs <;> simp [k1_fold_unclass]

lemma k1_phase_rwh (counts : KmerCounts) (n : Nat) (rcA : KmerStatsReadCounts) :
    (k1_phase counts n rcA).rc.reads_with_highest_contaminant
      = rcA.reads_with_highest_contaminant := by
  simp only [k1_phase]
  split_ifs <;> simp [k1_fold_rwh]

lemma k1_phase_kn (counts : KmerCounts) (n : Nat) (rcA : KmerStatsReadCounts) :
    (k1_phase counts n rcA).rc.kn_contaminated_reads = rcA.kn_contaminated_reads := by
  simp only [k1_phase]
  split_ifs <;> simp [k1_fold_kn]

lemma k1_phase_kn_by (counts : KmerCounts) (n : Nat) (rcA : KmerStatsReadCounts) :
    (k1_phase counts n rcA).rc.kn_contaminated_reads_by_contaminant
      = rcA.kn_contaminated_reads_by_contaminant := by
  simp only [k1_phase]
  split_ifs <;> simp [k1_fold_kn_by]

lemma k1_phase_largest (counts : KmerCounts) (n : Nat) (rcA : KmerStatsReadCounts) :
    0 < (k1_phase counts n rcA).largest_kmers →
      (k1_phase counts n rcA).largest_contaminant < n := by
  simp only [k1_phase]
  split_ifs
  · intro h
    exact k1_fold_largest counts n (List.range n) _
      (fun j hj => List.mem_range.mp hj) (fun h0 => absurd h0 (by simp)) (by simpa using h)
  · intro h
    exact absurd h (by simp)

lemma update_stats_shape (cmd_line : CmdLine) (n : Nat) (counts : KmerCounts)
    (rc0 : KmerStatsReadCounts) :
    ∃ lk lc : Nat,
      (0 < lk → lc < n)
      ∧ (update_stats cmd_line n counts rc0).assigned_contaminant
          = (if lk = 0 then (-1 : Int) else (lc : Int))
      ∧ (update_stats cmd_line n counts rc0).rc.number_of_reads = rc0.number_of_reads + 1
      ∧ (update_stats cmd_line n counts rc0).rc.reads_unclassified
          = (if lk = 0 then rc0.reads_unclassified + 1 else rc0.reads_unclassified)
      ∧ (update_stats cmd_line n counts rc0).rc.reads_with_highest_contaminant
          = (if lk = 0 then rc0.reads_with_highest_contaminant
             else bump rc0.reads_with_highest_contaminant lc) := by
  refine ⟨(k1_phase counts n (read_entry counts rc0)).largest_kmers,
          (k1_phase counts n (read_entry counts rc0)).largest_contaminant,
          k1_phase_largest counts n (read_entry counts rc0), ?_, ?_, ?_, ?_⟩
  all_goals simp only [update_stats]
  all_goals split_ifs <;>
    simp_all [kn_fold_nreads, kn_fold_unclass, kn_fold_rwh,
              k1_phase_nreads, k1_phase_unclass, k1_phase_rwh, read_entry]

/-- **C6.** In single-read classification the N-hit tier is gated by the
non-strict outer comparison `kmers_loaded >= kmer_threshold_read`; inside
the gate, contaminant `i`'s N-hit counter increments iff its raw hit count
is *strictly* greater than the threshold; and the read-level
`kn_contaminated_reads` counter increments exactly when the outer gate
passes, regardless of the inner comparisons. -/
theorem claim_C6_threshold_tier_gating :
    ∀ (cmd_line : CmdLine) (n : Nat) (counts : KmerCounts)
      (rc0 : KmerStatsReadCounts) (i : Nat),
      (update_stats cmd_line n counts rc0).rc.kn_contaminated_reads
          = rc0.kn_contaminated_reads
            + (if cmd_line.kmer_threshold_read ≤ counts.kmers_loaded then 1 else 0)
      ∧ (update_stats cmd_line n counts rc0).rc.kn_contaminated_reads_by_contaminant i
          = rc0.kn_contaminated_reads_by_contaminant i
            + (if cmd_line.kmer_threshold_read ≤ counts.kmers_loaded ∧ i < n
                  ∧ cmd_line.kmer_threshold_read < counts.kmers_from_contaminant i
               then 1 else 0) := by
  intro cmd_line n counts rc0 i
  constructor <;>
  · simp only [update_stats]
    split_ifs <;>
      simp_all [kn_fold_kn, kn_fold_point, k1_phase_kn, k1_phase_kn_by, read_entry]

/-- Summing a bumped array over `range n` adds 1 exactly when the bumped
index is in range. -/
lemma sum_bump (f : Nat → Nat) (j n : Nat) :
    Finset.sum (Finset.range n) (bump f j)
      = Finset.sum (Finset.range n) f + (if j < n then 1 else 0) := by
  have h1 : bump f j = fun i => f i + (if i = j then 1 else 0) := by
    funext i
    simp only [bump]
    split_ifs <;> omega
  rw [h1, Finset.sum_add_distrib, Finset.sum_ite_eq' (Finset.range n) j (fun _ => 1)]
  simp [Finset.mem_range]

/-- **C1.**  Each call to `update_stats` increments `number_of_reads` by
one and exactly one of `reads_unclassified` (when the read is unclassified,
`assigned_contaminant = -1`) or `reads_with_highest_contaminant[best]`
(when a contaminant is assigned; the assigned index is `< n_contaminants`),
so `reads_unclassified + Σ_i reads_with_highest_contaminant[i]` grows by
exactly one per call, and over any sequence of reads processed from the
zero-initialised block the invariant
`reads_unclassified + Σ assigned-highest = number_of_reads = #reads` holds.
By C2 (`update_stats = update_stats_parallel`, definitional) the same holds
for the parallel variant. -/
theorem claim_C1_unclassified_plus_assigned_invariant :
    ∀ (cmd_line : CmdLine) (n : Nat) (counts : KmerCounts)
      (rc0 : KmerStatsReadCounts) (reads : List KmerCounts),
      (update_stats cmd_line n counts rc0).rc.number_of_reads = rc0.number_of_reads + 1
      ∧ (update_stats cmd_line n counts rc0).rc.reads_unclassified
          = rc0.reads_unclassified
            + (if (update_stats cmd_line n counts rc0).assigned_contaminant = -1 then 1 else 0)
      ∧ (update_stats cmd_line n counts rc0).rc.reads_with_highest_contaminant
          = (if (update_stats cmd_line n counts rc0).assigned_contaminant = -1
             then rc0.reads_with_highest_contaminant
             else bump rc0.reads_with_highest_contaminant
                    (update_stats cmd_line n counts rc0).assigned_contaminant.toNat)
      ∧ ((update_stats cmd_line n counts rc0).assigned_contaminant = -1
          ∨ (update_stats cmd_line n counts rc0).assigned_contaminant.toNat < n)
      ∧ (update_stats cmd_line n counts rc0).rc.reads_unclassified
          + Finset.sum (Finset.range n)
              (update_stats cmd_line n counts rc0).rc.reads_with_highest_contaminant
          = rc0.reads_unclassified
            + Finset.sum (Finset.range n) rc0.reads_with_highest_contaminant + 1
      ∧ (reads.foldl (fun s c => (update_stats cmd_line n c s).rc)
            kmer_stats_read_counts_initialise).reads_unclassified
          + Finset.sum (Finset.range n)
              (reads.foldl (fun s c => (update_stats cmd_line n c s).rc)
                kmer_stats_read_counts_initialise).reads_with_highest_contaminant
          = (reads.foldl (fun s c => (update_stats cmd_line n c s).rc)
              kmer_stats_read_counts_initialise).number_of_reads
      ∧ (reads.foldl (fun s c => (update_stats cmd_line n c s).rc)
            kmer_stats_read_counts_initialise).number_of_reads = reads.length := by
  intro cmd_line n counts rc0 reads
  have core : ∀ (c : KmerCounts) (rc : KmerStatsReadCounts),
      (update_stats cmd_line n c rc).rc.number_of_reads = rc.number_of_reads + 1
      ∧ (update_stats cmd_line n c rc).rc.reads_unclassified
          + Finset.sum (Finset.range n)
              (update_stats cmd_line n c rc).rc.reads_with_highest_contaminant
        = rc.reads_unclassified
          + Finset.sum (Finset.range n) rc.reads_with_highest_contaminant + 1 := by
    intro c rc
    obtain ⟨lk, lc, hb, hass, hnr, hunc, hrwh⟩ := update_stats_shape cmd_line n c rc
    refine ⟨hnr, ?_⟩
    by_cases h0 : lk = 0
    · rw [hunc, hrwh, if_pos h0, if_pos h0]
      omega
    · rw [hunc, hrwh, if_neg h0, if_neg h0, sum_bump,
          if_pos (hb (Nat.pos_of_ne_zero h0))]
      omega
  have key : ∀ (l : List KmerCounts) (st : KmerStatsReadCounts),
      (l.foldl (fun s c => (update_stats cmd_line n c s).rc) st).reads_unclassified
          + Finset.sum (Finset.range n)
              (l.foldl (fun s c => (update_stats cmd_line n c s).rc) st).reads_with_highest_contaminant
        = st.reads_unclassified
          + Finset.sum (Finset.range n) st.reads_with_highest_contaminant + l.length
      ∧ (l.foldl (fun s c => (update_stats cmd_line n c s).rc) st).number_of_reads
        = st.number_of_reads + l.length := by
    intro l
    induction l with
    | nil => intro st; simp
    | cons c l ih =>
        intro st
        rw [List.foldl_cons]
        obtain ⟨ih1, ih2⟩ := ih ((update_stats cmd_line n c st).rc)
        obtain ⟨c1, c2⟩ := core c st
        constructor
        · rw [ih1, c2, List.length_cons]; omega
        · rw [ih2, c1, List.length_cons]; omega
  obtain ⟨lk, lc, hb, hass, hnr, hunc, hrwh⟩ := update_stats_shape cmd_line n counts rc0
  have hiff : ((update_stats cmd_line n counts rc0).assigned_contaminant = -1) ↔ lk = 0 := by
    rw [hass]
    by_cases h0 : lk = 0
    · simp [h0]
    · simp only [if_neg h0]
      constructor
      · intro habs; exfalso; omega
      · intro h; exact absurd h h0
  refine ⟨hnr, ?_, ?_, ?_, (core counts rc0).2, ?_, ?_⟩
  · rw [hunc]
    simp only [hiff]
    by_cases h0 : lk = 0 <;> simp [h0]
  · rw [hrwh]
    by_cases h0 : lk = 0
    · simp [h0, hiff]
    · simp only [hiff, if_neg h0]
      rw [hass, if_neg h0]
      simp
  · by_cases h0 : lk = 0
    · exact Or.inl (hiff.mpr h0)
    · right
      rw [hass, if_neg h0]
      simpa using hb (Nat.pos_of_ne_zero h0)
  · obtain ⟨k1, k2⟩ := key reads kmer_stats_read_counts_initialise
    rw [k1, k2]
    simp [kmer_stats_read_counts_initialise]
  · rw [(key reads kmer_stats_read_counts_initialise).2]
    simp [kmer_stats_read_counts_initialise]

/-- **C7.**  The claim states that with `number_of_reads == 0` (or a zero
per-contaminant reference k-mer count) finalization is skipped or emits a
sentinel.  The code does neither: `kmer_stats_calculate_read` and
`kmer_stats_calculate_both` divide unconditionally, so the zero denominator
produces an IEEE division artifact (NaN/inf, modelled `none`), overwriting
the field — it is neither left at its initial `0.0` (`some 0`) nor set to a
sentinel.  Evaluation at the failing inputs: fresh counters with
`number_of_reads = 0`, and a contaminant with `contaminant_kmers[0] = 0`. -/
theorem claim_C7_zero_denominator_division_artifact :
    (kmer_stats_calculate_read 1 (fun _ => 1)
        kmer_stats_read_counts_initialise).k1_contaminaned_reads_pc = none
    ∧ (kmer_stats_calculate_read 1 (fun _ => 0)
        { kmer_stats_read_counts_initialise with number_of_reads := 5 }).contaminant_kmers_seen_pc 0
        = none
    ∧ (kmer_stats_calculate_both 1 (fun _ => 1)
        kmer_stats_both_reads_initialise).threshold_passed_reads_pc = none := by
  refine ⟨rfl, ?_, rfl⟩
  decide

/-- **C8** is false as stated for the similarity outputs: when `fopen`
fails for the first similarity file (and `n_contaminants ≥ 2` so the
function does not return early), `kmer_stats_compare_contaminant_kmers`
reports the error and calls `exit(1)` (modelled `none`) — a fatal
condition, not a skip-and-continue. -/
theorem claim_C8_counterexample :
    kmer_stats_compare_contaminant_kmers 2 (fun _ => false) = none := by decide

/-- **C8 (amended).**  Only the *progress* outputs have the claimed
behaviour: `kmer_stats_write_progress` never terminates the run — every
file whose `fopen` succeeds is written, every failure is logged and only
that artifact is skipped (per mate, the three files partition into written
and logged).  For the *similarity* outputs the failure is fatal:
`kmer_stats_compare_contaminant_kmers` exits (`none`) exactly when
`n_contaminants ≥ 2` and some of its four output files fails to open. -/
theorem claim_C8_progress_skips_similarity_fatal :
    ∀ (number_of_files n : Nat) (openOk : String → Bool),
      (∀ f, f ∈ (kmer_stats_write_progress number_of_files openOk).1 → openOk f = true)
      ∧ (∀ f, f ∈ (kmer_stats_write_progress number_of_files openOk).2 → openOk f = false)
      ∧ (kmer_stats_write_progress number_of_files openOk).1.length
          + (kmer_stats_write_progress number_of_files openOk).2.length
          = 3 * number_of_files
      ∧ (kmer_stats_compare_contaminant_kmers n openOk = none
          ↔ 2 ≤ n ∧ (openOk "kmer_similarity_absolute.txt" = false
                     ∨ openOk "kmer_similarity_pc.txt" = false
                     ∨ openOk "kmer_unique_absolute.txt" = false
                     ∨ openOk "kmer_unique_pc.txt" = false)) := by
  intro number_of_files n openOk
  have hgen : ∀ (nf : Nat) (acc : List String × List String),
      (∀ f, f ∈ ((List.range nf).foldl
          (fun acc r =>
            (acc.1 ++ (progress_files r).filter (fun f => openOk f),
             acc.2 ++ (progress_files r).filter (fun f => openOk f = false))) acc).1
          → f ∈ acc.1 ∨ openOk f = true)
      ∧ (∀ f, f ∈ ((List.range nf).foldl
          (fun acc r =>
            (acc.1 ++ (progress_files r).filter (fun f => openOk f),
             acc.2 ++ (progress_files r).filter (fun f => openOk f = false))) acc).2
          → f ∈ acc.2 ∨ openOk f = false)
      ∧ ((List.range nf).foldl
          (fun acc r =>
            (acc.1 ++ (progress_files r).filter (fun f => openOk f),
             acc.2 ++ (progress_files r).filter (fun f => openOk f = false))) acc).1.length
        + ((List.range nf).foldl
          (fun acc r =>
            (acc.1 ++ (progress_files r).filter (fun f => openOk f),
             acc.2 ++ (progress_files r).filter (fun f => openOk f = false))) acc).2.length
        = acc.1.length + acc.2.length + 3 * nf := by
    intro nf
    induction nf with
    | zero => intro acc; refine ⟨fun f hf => Or.inl hf, fun f hf => Or.inl hf, by simp⟩
    | succ m ih =>
        intro acc
        rw [List.range_succ]
        simp only [List.foldl_append, List.foldl_cons, List.foldl_nil]
        obtain ⟨ih1, ih2, ih3⟩ := ih acc
        refine ⟨?_, ?_, ?_⟩
        · intro f hf
          rcases List.mem_append.mp hf with hf1 | hf2
          · exact ih1 f hf1
          · exact Or.inr (List.of_mem_filter hf2)
        · intro f hf
          rcases List.mem_append.mp hf with hf1 | hf2
          · exact ih2 f hf1
          · exact Or.inr (by simpa using List.of_mem_filter hf2)
        · have hpart : ((progress_files m).filter (fun f => openOk f)).length
              + ((progress_files m).filter (fun f => openOk f = false)).length = 3 := by
            cases h1 : openOk ("data_overall_r" ++ toString (m + 1) ++ ".txt") <;>
              cases h2 : openOk ("data_per_contaminant_r" ++ toString (m + 1) ++ ".txt") <;>
                cases h3 : openOk ("largest_contaminant_r" ++ toString (m + 1) ++ ".txt") <;>
                  simp [progress_files, h1, h2, h3]
          simp only [List.length_append, ih3]
          omega
  obtain ⟨h1, h2, h3⟩ := hgen number_of_files ([], [])
  refine ⟨?_, ?_, ?_, ?_⟩
  · intro f hf
    rcases h1 f hf with h | h
    · exact absurd h (List.not_mem_nil f)
    · exact h
  · intro f hf
    rcases h2 f hf with h | h
    · exact absurd h (List.not_mem_nil f)
    · exact h
  · have h4 : (kmer_stats_write_progress number_of_files openOk).1.length
        + (kmer_stats_write_progress number_of_files openOk).2.length
        = ([] : List String).length + ([] : List String).length + 3 * number_of_files := h3
    simpa using h4
  · simp only [kmer_stats_compare_contaminant_kmers]
    by_cases hn : n < 2
    · simp [hn]
    · cases g1 : openOk "kmer_similarity_absolute.txt" <;>
        cases g2 : openOk "kmer_similarity_pc.txt" <;>
          cases g3 : openOk "kmer_unique_absolute.txt" <;>
            cases g4 : openOk "kmer_unique_pc.txt" <;>
              simp [hn, g1, g2, g3, g4] <;> omega

/-- Witness for C8 (amended): with one mate and an `fopen` that succeeds
only for `data_overall_r1.txt`, that file is among the written ones and
the theorem's first component concludes its open succeeded. -/
theorem claim_C8_progress_skips_similarity_fatal_witness :
    "data_overall_r1.txt" ∈ (kmer_stats_write_progress 1
        (fun f => f == "data_overall_r1.txt")).1
    ∧ (fun f : String => f == "data_overall_r1.txt") "data_overall_r1.txt" = true :=
  ⟨by decide,
   (claim_C8_progress_skips_similarity_fatal 1 2
      (fun f => f == "data_overall_r1.txt")).1 "data_overall_r1.txt" (by decide)⟩

/-- Pointwise effect of one inner iteration of `check_kmers_in_common`. -/
lemma kic_inner_point (node : Nat → Bool) (i j p q : Nat) (m : Nat → Nat → Nat) :
    kic_inner node i m j p q
      = m p q + (if node j = true ∧ ((p = i ∧ q = j) ∨ (¬ i = j ∧ p = j ∧ q = i))
                 then 1 else 0) := by
  simp only [kic_inner]
  split_ifs <;> simp_all [bump2] <;> try split_ifs <;> simp_all <;> omega

/-- Pointwise effect of the whole inner loop over a duplicate-free index
list: entry `(p, q)` gains 1 iff row `p = i` and `q` is a set bit in the
list, or (mirrored) column `q = i` with `p ≠ i` a set bit in the list. -/
lemma kic_inner_fold (node : Nat → Bool) (i p q : Nat) :
    ∀ (L : List Nat), L.Nodup → ∀ (m : Nat → Nat → Nat),
      L.foldl (kic_inner node i) m p q
        = m p q + (if (p = i ∧ node q = true ∧ q ∈ L)
                      ∨ (q = i ∧ ¬ p = i ∧ node p = true ∧ p ∈ L)
                   then 1 else 0) := by
  intro L
  induction L with
  | nil => intro _ m; simp
  | cons j rest ih =>
      intro hnd m
      obtain ⟨hj, hrest⟩ := List.nodup_cons.mp hnd
      rw [List.foldl_cons, ih hrest, kic_inner_point]
      have hsplit :
          ((p = i ∧ node q = true ∧ q ∈ j :: rest)
              ∨ (q = i ∧ ¬ p = i ∧ node p = true ∧ p ∈ j :: rest))
            ↔ ((node j = true ∧ ((p = i ∧ q = j) ∨ (¬ i = j ∧ p = j ∧ q = i)))
               ∨ ((p = i ∧ node q = true ∧ q ∈ rest)
                  ∨ (q = i ∧ ¬ p = i ∧ node p = true ∧ p ∈ rest))) := by
        constructor
        · rintro (⟨hpi, hnq, hq⟩ | ⟨hqi, hpi, hnp, hp⟩)
          · rcases List.mem_cons.mp hq with hq | hq
            · exact Or.inl ⟨hq ▸ hnq, Or.inl ⟨hpi, hq⟩⟩
            · exact Or.inr (Or.inl ⟨hpi, hnq, hq⟩)
          · rcases List.mem_cons.mp hp with hp | hp
            · exact Or.inl ⟨hp ▸ hnp, Or.inr ⟨fun hij => hpi (hp.trans hij.symm),
                hp, hqi⟩⟩
            · exact Or.inr (Or.inr ⟨hqi, hpi, hnp, hp⟩)
        · rintro (⟨hnj, (⟨hpi, hqj⟩ | ⟨hij, hpj, hqi⟩)⟩ | (⟨hpi, hnq, hq⟩ | ⟨hqi, hpi, hnp, hp⟩))
          · exact Or.inl ⟨hpi, hqj ▸ hnj, by simp [hqj]⟩
          · exact Or.inr ⟨hqi, fun hpi2 => hij (hpi2 ▸ hpj), hpj ▸ hnj, by simp [hpj]⟩
          · exact Or.inl ⟨hpi, hnq, List.mem_cons_of_mem j hq⟩
          · exact Or.inr ⟨hqi, hpi, hnp, List.mem_cons_of_mem j hp⟩
      have hexcl :
          ¬((node j = true ∧ ((p = i ∧ q = j) ∨ (¬ i = j ∧ p = j ∧ q = i)))
            ∧ ((p = i ∧ node q = true ∧ q ∈ rest)
               ∨ (q = i ∧ ¬ p = i ∧ node p = true ∧ p ∈ rest))) := by
        rintro ⟨⟨hnj, (⟨hpi, hqj⟩ | ⟨hij, hpj, hqi⟩)⟩,
                (⟨hpi2, hnq, hq⟩ | ⟨hqi2, hpi2, hnp, hp⟩)⟩
        · exact hj (hqj ▸ hq)
        · exact hpi2 hpi
        · exact hij (hpi2 ▸ hpj)
        · exact hj (hpj ▸ hp)
      by_cases hA : node j = true ∧ ((p = i ∧ q = j) ∨ (¬ i = j ∧ p = j ∧ q = i)) <;>
        by_cases hB : (p = i ∧ node q = true ∧ q ∈ rest)
            ∨ (q = i ∧ ¬ p = i ∧ node p = true ∧ p ∈ rest)
      · exact absurd ⟨hA, hB⟩ hexcl
      · rw [if_pos hA, if_neg hB, if_pos (hsplit.mpr (Or.inl hA))]
      · rw [if_neg hA, if_pos hB, if_pos (hsplit.mpr (Or.inr hB))]
      · rw [if_neg hA, if_neg hB, if_neg (fun h => ((hsplit.mp h).elim hA hB))]

/-- Pointwise effect of one outer iteration of `check_kmers_in_common` on
entry `(p, q)` (both in range): the entry gains 1 exactly when bit `i` is
set together with bits `p` and `q`, and `i` is the smaller of `p`, `q`
(so each unordered pair is counted from its first index only). -/
lemma kic_outer_point (n : Nat) (node : Nat → Bool) (p q : Nat)
    (hp : p < n) (hq : q < n) (i : Nat) (m : Nat → Nat → Nat) :
    kic_outer n node m i p q
      = m p q + (if node i = true ∧ node p = true ∧ node q = true
                    ∧ ((i = p ∧ p ≤ q) ∨ (i = q ∧ ¬ p = q ∧ q ≤ p))
                 then 1 else 0) := by
  simp only [kic_outer]
  by_cases hni : node i = true
  · rw [if_pos hni,
        kic_inner_fold node i p q (List.range' i (n - i))
          (List.nodup_range' i (n - i) 1 Nat.one_pos) m]
    have hmem : ∀ x, x ∈ List.range' i (n - i) ↔ i ≤ x ∧ x < n := by
      intro x
      rw [List.mem_range'_1]
      omega
    have hcond : ((p = i ∧ node q = true ∧ q ∈ List.range' i (n - i))
          ∨ (q = i ∧ ¬ p = i ∧ node p = true ∧ p ∈ List.range' i (n - i)))
        ↔ (node i = true ∧ node p = true ∧ node q = true
            ∧ ((i = p ∧ p ≤ q) ∨ (i = q ∧ ¬ p = q ∧ q ≤ p))) := by
      constructor
      · rintro (⟨hpi, hnq, hqm⟩ | ⟨hqi, hpi, hnp, hpm⟩)
        · subst hpi
          obtain ⟨h1, _⟩ := (hmem q).mp hqm
          exact ⟨hni, hni, hnq, Or.inl ⟨rfl, h1⟩⟩
        · subst hqi
          obtain ⟨h1, _⟩ := (hmem p).mp hpm
          exact ⟨hni, hnp, hni, Or.inr ⟨rfl, fun hpq => hpi hpq, h1⟩⟩
      · rintro ⟨_, hnp, hnq, (⟨hip, hpq⟩ | ⟨hiq, hpq2, hqp⟩)⟩
        · subst hip
          exact Or.inl ⟨rfl, hnq, (hmem q).mpr ⟨hpq, hq⟩⟩
        · subst hiq
          exact Or.inr ⟨rfl, fun hpi => hpq2 hpi, hnp, (hmem p).mpr ⟨hqp, hp⟩⟩
    rw [if_congr hcond rfl rfl]
  · rw [if_neg hni, if_neg (fun h => hni h.1)]
    omega

/-- Pointwise effect of the outer loop over any duplicate-free index list. -/
lemma kic_fold (n : Nat) (node : Nat → Bool) (p q : Nat)
    (hp : p < n) (hq : q < n) :
    ∀ (I : List Nat), I.Nodup → ∀ (m : Nat → Nat → Nat),
      I.foldl (kic_outer n node) m p q
        = m p q + (if node p = true ∧ node q = true
                      ∧ ((p ∈ I ∧ p ≤ q) ∨ (q ∈ I ∧ ¬ p = q ∧ q ≤ p))
                   then 1 else 0) := by
  intro I
  induction I with
  | nil => intro _ m; simp
  | cons i rest ih =>
      intro hnd m
      obtain ⟨hi, hrest⟩ := List.nodup_cons.mp hnd
      rw [List.foldl_cons, ih hrest, kic_outer_point n node p q hp hq i m]
      have hsplit :
          (node p = true ∧ node q = true
              ∧ ((p ∈ i :: rest ∧ p ≤ q) ∨ (q ∈ i :: rest ∧ ¬ p = q ∧ q ≤ p)))
            ↔ ((node i = true ∧ node p = true ∧ node q = true
                  ∧ ((i = p ∧ p ≤ q) ∨ (i = q ∧ ¬ p = q ∧ q ≤ p)))
               ∨ (node p = true ∧ node q = true
                  ∧ ((p ∈ rest ∧ p ≤ q) ∨ (q ∈ rest ∧ ¬ p = q ∧ q ≤ p)))) := by
        constructor
        · rintro ⟨hnp, hnq, (⟨hpm, hpq⟩ | ⟨hqm, hne, hqp⟩)⟩
          · rcases List.mem_cons.mp hpm with hpe | hpm2
            · exact Or.inl ⟨hpe ▸ hnp, hnp, hnq, Or.inl ⟨hpe.symm, hpq⟩⟩
            · exact Or.inr ⟨hnp, hnq, Or.inl ⟨hpm2, hpq⟩⟩
          · rcases List.mem_cons.mp hqm with hqe | hqm2
            · exact Or.inl ⟨hqe ▸ hnq, hnp, hnq, Or.inr ⟨hqe.symm, hne, hqp⟩⟩
            · exact Or.inr ⟨hnp, hnq, Or.inr ⟨hqm2, hne, hqp⟩⟩
        · rintro (⟨_, hnp, hnq, (⟨hip, hpq⟩ | ⟨hiq, hne, hqp⟩)⟩
                  | ⟨hnp, hnq, (⟨hpm, hpq⟩ | ⟨hqm, hne, hqp⟩)⟩)
          · exact ⟨hnp, hnq, Or.inl ⟨by simp [hip.symm], hpq⟩⟩
          · exact ⟨hnp, hnq, Or.inr ⟨by simp [hiq.symm], hne, hqp⟩⟩
          · exact ⟨hnp, hnq, Or.inl ⟨List.mem_cons_of_mem i hpm, hpq⟩⟩
          · exact ⟨hnp, hnq, Or.inr ⟨List.mem_cons_of_mem i hqm, hne, hqp⟩⟩
      have hexcl :
          ¬((node i = true ∧ node p = true ∧ node q = true
              ∧ ((i = p ∧ p ≤ q) ∨ (i = q ∧ ¬ p = q ∧ q ≤ p)))
            ∧ (node p = true ∧ node q = true
               ∧ ((p ∈ rest ∧ p ≤ q) ∨ (q ∈ rest ∧ ¬ p = q ∧ q ≤ p)))) := by
        rintro ⟨⟨_, _, _, (⟨hip, hpq⟩ | ⟨hiq, hne1, hqp⟩)⟩,
                ⟨_, _, (⟨hpm, hpq2⟩ | ⟨hqm, hne2, hqp2⟩)⟩⟩
        · exact hi (hip ▸ hpm)
        · exact hne2 (by omega)
        · exact hne1 (by omega)
        · exact hi (hiq ▸ hqm)
      by_cases hA : node i = true ∧ node p = true ∧ node q = true
          ∧ ((i = p ∧ p ≤ q) ∨ (i = q ∧ ¬ p = q ∧ q ≤ p)) <;>
        by_cases hB : node p = true ∧ node q = true
            ∧ ((p ∈ rest ∧ p ≤ q) ∨ (q ∈ rest ∧ ¬ p = q ∧ q ≤ p))
      · exact absurd ⟨hA, hB⟩ hexcl
      · rw [if_pos hA, if_neg hB, if_pos (hsplit.mpr (Or.inl hA))]
      · rw [if_neg hA, if_pos hB, if_pos (hsplit.mpr (Or.inr hB))]
      · rw [if_neg hA, if_neg hB, if_neg (fun h => ((hsplit.mp h).elim hA hB))]

/-- Per-k-mer effect of `check_kmers_in_common`: every in-range entry
`(p, q)` with both membership bits set gains exactly 1. -/
lemma check_kmers_in_common_point (n : Nat) (node : Nat → Bool) (p q : Nat)
    (hp : p < n) (hq : q < n) (m : Nat → Nat → Nat) :
    check_kmers_in_common n node m p q
      = m p q + (if node p = true ∧ node q = true then 1 else 0) := by
  simp only [check_kmers_in_common]
  rw [kic_fold n node p q hp hq (List.range n) (List.nodup_range n) m]
  have hcond : (node p = true ∧ node q = true
        ∧ ((p ∈ List.range n ∧ p ≤ q) ∨ (q ∈ List.range n ∧ ¬ p = q ∧ q ≤ p)))
      ↔ (node p = true ∧ node q = true) := by
    constructor
    · rintro ⟨hnp, hnq, _⟩; exact ⟨hnp, hnq⟩
    · rintro ⟨hnp, hnq⟩
      refine ⟨hnp, hnq, ?_⟩
      by_cases hpq : p ≤ q
      · exact Or.inl ⟨List.mem_range.mpr hp, hpq⟩
      · exact Or.inr ⟨List.mem_range.mpr hq, by omega, by omega⟩
  rw [if_congr hcond rfl rfl]

/-- Once two set bits have been seen the loop has already returned; with a
count of 1 and no further set bits it returns unchanged. -/
lemma cuk_loop_stay (node : Nat → Bool) :
    ∀ (L : List Nat) (idx : Nat), L.countP (fun j => node j) = 0 →
      cuk_loop node L 1 idx = (1, idx) := by
  intro L
  induction L with
  | nil => intro idx _; rfl
  | cons j rest ih =>
      intro idx hc
      rw [List.countP_cons] at hc
      have hj : node j = false := by
        by_cases h : node j = true
        · simp [h] at hc
        · simpa using h
      simp only [cuk_loop, hj]
      exact ih idx (by omega)

/-- A scan over indices with no set bit leaves the zero count. -/
lemma cuk_loop_zero (node : Nat → Bool) :
    ∀ (L : List Nat) (idx : Nat), L.countP (fun j => node j) = 0 →
      cuk_loop node L 0 idx = (0, idx) := by
  intro L
  induction L with
  | nil => intro idx _; rfl
  | cons j rest ih =>
      intro idx hc
      rw [List.countP_cons] at hc
      have hj : node j = false := by
        by_cases h : node j = true
        · simp [h] at hc
        · simpa using h
      simp only [cuk_loop, hj]
      exact ih idx (by omega)

/-- With exactly one set bit `p` in the list, the loop returns `(1, p)`. -/
lemma cuk_loop_one (node : Nat → Bool) :
    ∀ (L : List Nat) (idx p : Nat), L.filter (fun j => node j) = [p] →
      cuk_loop node L 0 idx = (1, p) := by
  intro L
  induction L with
  | nil => intro idx p h; exact absurd h (by simp)
  | cons j rest ih =>
      intro idx p h
      by_cases hj : node j = true
      · rw [List.filter_cons_of_pos hj] at h
        obtain ⟨hjp, hrest⟩ := List.cons_eq_cons.mp h
        have hrest2 : List.filter (fun j => node j) rest = [] := hrest
        have hc : rest.countP (fun j => node j) = 0 := by
          rw [List.countP_eq_length_filter, hrest2]
          rfl
        subst hjp
        simp [cuk_loop, hj, cuk_loop_stay node rest j hc]
      · rw [List.filter_cons_of_neg (by simpa using hj)] at h
        simp only [cuk_loop, hj]
        simp only [Bool.false_eq_true, if_false]
        exact ih idx p h
/-- With two or more set bits remaining (counting those already seen), the
final count is at least 2, so no unique increment happens. -/
lemma cuk_loop_two (node : Nat → Bool) :
    ∀ (L : List Nat) (c idx : Nat), c ≤ 1 →
      2 ≤ c + L.countP (fun j => node j) →
      2 ≤ (cuk_loop node L c idx).1 := by
  intro L
  induction L with
  | nil => intro c idx hc h2; simp at h2; omega
  | cons j rest ih =>
      intro c idx hc h2
      rw [List.countP_cons] at h2
      by_cases hj : node j = true
      · simp only [cuk_loop, hj]
        by_cases hcc : 1 < c + 1
        · rw [if_pos hcc]
          simpa using hcc
        · rw [if_neg hcc]
          exact ih (c + 1) j (by omega) (by simp [hj] at h2; omega)
      · have hjf : node j = false := by simpa using hj
        simp only [cuk_loop, hjf]
        exact ih c idx hc (by simp [hjf] at h2; omega)

/-- `true` iff the bitset restricted to contaminants `0..n-1` is exactly
the singleton `{p}` (the condition under which `check_unique_kmers`
increments entry `p`). -/
def is_unique_to (n p : Nat) (node : Nat → Bool) : Bool :=
  node p && (List.range n).all (fun j => !(node j) || (j == p))

/-- Per-k-mer effect of `check_unique_kmers` on an in-range entry. -/
lemma check_unique_kmers_point (n : Nat) (node : Nat → Bool) (u : Nat → Nat)
    (p : Nat) (hp : p < n) :
    check_unique_kmers n node u p
      = u p + (if is_unique_to n p node = true then 1 else 0) := by
  have hchar : is_unique_to n p node = true
      ↔ (node p = true ∧ ∀ j, j < n → node j = true → j = p) := by
    simp only [is_unique_to, Bool.and_eq_true, List.all_eq_true, List.mem_range,
               Bool.or_eq_true, Bool.not_eq_true', beq_iff_eq]
    constructor
    · rintro ⟨h1, h2⟩
      refine ⟨h1, fun j hj hnj => ?_⟩
      rcases h2 j hj with h | h
      · rw [hnj] at h; cases h
      · exact h
    · rintro ⟨h1, h2⟩
      refine ⟨h1, fun j hj => ?_⟩
      by_cases hnj : node j = true
      · exact Or.inr (h2 j hj hnj)
      · exact Or.inl (by simpa using hnj)
  rcases Nat.lt_or_ge ((List.range n).countP (fun j => node j)) 2 with hlt | hge
  · interval_cases hcnt : (List.range n).countP (fun j => node j)
    · have hloop := cuk_loop_zero node (List.range n) 0 hcnt
      have hcond : ¬ is_unique_to n p node = true := by
        intro hu
        obtain ⟨h1, _⟩ := hchar.mp hu
        have hpos : 0 < (List.range n).countP (fun j => node j) :=
          List.countP_pos_iff.mpr ⟨p, List.mem_range.mpr hp, h1⟩
        omega
      simp only [check_unique_kmers, hloop]
      rw [if_neg (by simp), if_neg hcond]
      omega
    · have hlen : ((List.range n).filter (fun j => node j)).length = 1 := by
        rw [← List.countP_eq_length_filter]
        exact hcnt
      obtain ⟨x, hx⟩ := List.length_eq_one.mp hlen
      have hxin : x ∈ (List.range n).filter (fun j => node j) := by
        rw [hx]; exact List.mem_cons_self x []
      have hxn : node x = true := (List.mem_filter.mp hxin).2
      have hred : check_unique_kmers n node u = bump u x := by
        rw [check_unique_kmers, cuk_loop_one node (List.range n) 0 x hx]
        rfl
      rw [hred]
      by_cases hpx : p = x
      · subst hpx
        have hcond : is_unique_to n p node = true := by
          refine hchar.mpr ⟨hxn, fun j hj hnj => ?_⟩
          have hmemf : j ∈ (List.range n).filter (fun j => node j) :=
            List.mem_filter.mpr ⟨List.mem_range.mpr hj, hnj⟩
          rw [hx] at hmemf
          simpa using hmemf
        rw [if_pos hcond]
        simp [bump]
      · have hcond : ¬ is_unique_to n p node = true := by
          intro hu
          obtain ⟨h1, _⟩ := hchar.mp hu
          have hmemf : p ∈ (List.range n).filter (fun j => node j) :=
            List.mem_filter.mpr ⟨List.mem_range.mpr hp, h1⟩
          rw [hx] at hmemf
          exact hpx (by simpa using hmemf)
        rw [if_neg hcond]
        simp [bump, hpx]
  · have h2 := cuk_loop_two node (List.range n) 0 0 (by omega) (by omega)
    have hcond : ¬ is_unique_to n p node = true := by
      intro hu
      obtain ⟨h1, hall⟩ := hchar.mp hu
      have hmono : (List.range n).countP (fun j => node j)
          ≤ (List.range n).countP (fun j => j == p) := by
        refine List.countP_mono_left (fun a ha hnode => ?_)
        simpa using hall a (List.mem_range.mp ha) (by simpa using hnode)
      have hcount : (List.range n).countP (fun j => j == p) ≤ 1 := by
        rw [← List.count_eq_countP]
        exact List.nodup_iff_count_le_one.mp (List.nodup_range n) p
      omega
    simp only [check_unique_kmers]
    rw [if_neg (by omega), if_neg hcond]
    omega

/-- `is_unique_to` unfolded: the bitset has bit `p` and no other bit below
`n`. -/
lemma is_unique_to_iff (n p : Nat) (node : Nat → Bool) :
    is_unique_to n p node = true
      ↔ (node p = true ∧ ∀ j, j < n → node j = true → j = p) := by
  simp only [is_unique_to, Bool.and_eq_true, List.all_eq_true, List.mem_range,
             Bool.or_eq_true, Bool.not_eq_true', beq_iff_eq]
  constructor
  · rintro ⟨h1, h2⟩
    refine ⟨h1, fun j hj hnj => ?_⟩
    rcases h2 j hj with h | h
    · rw [hnj] at h; cases h
    · exact h
  · rintro ⟨h1, h2⟩
    refine ⟨h1, fun j hj => ?_⟩
    by_cases hnj : node j = true
    · exact Or.inr (h2 j hj hnj)
    · exact Or.inl (by simpa using hnj)

/-- The full-table traversal with `check_kmers_in_common` counts, at entry
`(p, q)`, the stored k-mers whose bitsets contain both `p` and `q`. -/
lemma scan_kmers_in_common_point (n : Nat) (table : List (Nat → Bool)) (p q : Nat)
    (hp : p < n) (hq : q < n) :
    scan_kmers_in_common n table p q
      = (table.filter (fun node => node p && node q)).length := by
  suffices h : ∀ (m : Nat → Nat → Nat),
      (table.foldl (fun m node => check_kmers_in_common n node m) m) p q
        = m p q + (table.filter (fun node => node p && node q)).length by
    simpa [scan_kmers_in_common] using h (fun _ _ => 0)
  induction table with
  | nil => intro m; simp
  | cons node rest ih =>
      intro m
      rw [List.foldl_cons, ih, check_kmers_in_common_point n node p q hp hq m]
      clear ih
      by_cases h : node p = true ∧ node q = true
      · rw [if_pos h, List.filter_cons_of_pos (by simp [h.1, h.2])]
        simp only [List.length_cons]
        rw [Nat.add_assoc, Nat.add_comm 1]
      · rw [if_neg h, List.filter_cons_of_neg (by simpa [Bool.and_eq_true] using h)]
        rw [Nat.add_zero]

/-- The full-table traversal with `check_unique_kmers` counts, at entry
`p`, the stored k-mers whose bitsets are exactly `{p}` below `n`. -/
lemma scan_unique_kmers_point (n : Nat) (table : List (Nat → Bool)) (p : Nat)
    (hp : p < n) :
    scan_unique_kmers n table p
      = (table.filter (fun node => is_unique_to n p node)).length := by
  suffices h : ∀ (u : Nat → Nat),
      (table.foldl (fun u node => check_unique_kmers n node u) u) p
        = u p + (table.filter (fun node => is_unique_to n p node)).length by
    simpa [scan_unique_kmers] using h (fun _ => 0)
  induction table with
  | nil => intro u; simp
  | cons node rest ih =>
      intro u
      rw [List.foldl_cons, ih, check_unique_kmers_point n node u p hp]
      clear ih
      by_cases h : is_unique_to n p node = true
      · rw [if_pos h, List.filter_cons_of_pos (by simpa using h)]
        simp only [List.length_cons]
        rw [Nat.add_assoc, Nat.add_comm 1]
      · rw [if_neg h, List.filter_cons_of_neg (by simpa using h)]
        rw [Nat.add_zero]

/-- **C9.** The similarity scan builds the symmetric co-occurrence matrix
— entry `(p, q)` counts stored k-mers whose membership bitset contains both
`p` and `q` (the diagonal counting every k-mer with bit `p`) — and the
unique-k-mer vector — entry `p` counts k-mers whose bitset below
`n_contaminants` is exactly the singleton `{p}`.  In particular, for the
three-k-mer table with bitsets `{0}`, `{0,1}`, `{1}` the matrix is
`[[2,1],[1,2]]` and the unique counts are `[1,1]`. -/
theorem claim_C9_similarity_matrix_and_unique_counts :
    (∀ (n : Nat) (table : List (Nat → Bool)) (p q : Nat), p < n → q < n →
        scan_kmers_in_common n table p q
          = (table.filter (fun node => node p && node q)).length)
    ∧ (∀ (n : Nat) (table : List (Nat → Bool)) (p q : Nat), p < n → q < n →
        scan_kmers_in_common n table p q = scan_kmers_in_common n table q p)
    ∧ (∀ (n : Nat) (table : List (Nat → Bool)) (p : Nat), p < n →
        scan_unique_kmers n table p
          = (table.filter (fun node => is_unique_to n p node)).length)
    ∧ (∀ (n p : Nat) (node : Nat → Bool),
        is_unique_to n p node = true
          ↔ (node p = true ∧ ∀ j, j < n → node j = true → j = p))
    ∧ (scan_kmers_in_common 2 [fun i => i == 0, fun i => i == 0 || i == 1, fun i => i == 1] 0 0,
       scan_kmers_in_common 2 [fun i => i == 0, fun i => i == 0 || i == 1, fun i => i == 1] 0 1,
       scan_kmers_in_common 2 [fun i => i == 0, fun i => i == 0 || i == 1, fun i => i == 1] 1 0,
       scan_kmers_in_common 2 [fun i => i == 0, fun i => i == 0 || i == 1, fun i => i == 1] 1 1,
       scan_unique_kmers 2 [fun i => i == 0, fun i => i == 0 || i == 1, fun i => i == 1] 0,
       scan_unique_kmers 2 [fun i => i == 0, fun i => i == 0 || i == 1, fun i => i == 1] 1)
      = (2, 1, 1, 2, 1, 1) := by
  refine ⟨fun n table p q hp hq => scan_kmers_in_common_point n table p q hp hq,
          ?_, fun n table p hp => scan_unique_kmers_point n table p hp,
          is_unique_to_iff, by decide⟩
  intro n table p q hp hq
  rw [scan_kmers_in_common_point n table p q hp hq,
      scan_kmers_in_common_point n table q p hq hp]
  congr 1
  exact List.filter_congr (fun node _ => by rw [Bool.and_comm])

/-- Witness for C9: the general counting statements applied to the concrete
three-k-mer table at in-range indices. -/
theorem claim_C9_similarity_matrix_and_unique_counts_witness :
    (0 < 2 ∧ 1 < 2)
    ∧ scan_kmers_in_common 2
        [fun i => i == 0, fun i => i == 0 || i == 1, fun i => i == 1] 0 1
        = (([fun i => i == 0, fun i => i == 0 || i == 1, fun i => i == 1]
              : List (Nat → Bool)).filter (fun node => node 0 && node 1)).length
    ∧ scan_unique_kmers 2
        [fun i => i == 0, fun i => i == 0 || i == 1, fun i => i == 1] 0
        = (([fun i => i == 0, fun i => i == 0 || i == 1, fun i => i == 1]
              : List (Nat → Bool)).filter (fun node => is_unique_to 2 0 node)).length :=
  ⟨⟨by decide, by decide⟩,
   claim_C9_similarity_matrix_and_unique_counts.1 2
     [fun i => i == 0, fun i => i == 0 || i == 1, fun i => i == 1] 0 1
     (by decide) (by decide),
   claim_C9_similarity_matrix_and_unique_counts.2.2.1 2
     [fun i => i == 0, fun i => i == 0 || i == 1, fun i => i == 1] 0
     (by decide)⟩

/-- Tier-1 condition of the pair scan at index `i`:
`a >= thrR && b >= thrR && a+b >= thrO`. -/
def tier1b (thrR thrO : Nat) (ca cb : Nat → Nat) (i : Nat) : Bool :=
  decide (thrR ≤ ca i ∧ thrR ≤ cb i ∧ thrO ≤ ca i + cb i)

/-- Both mates have at least one hit at index `i`. -/
def hit_bothb (ca cb : Nat → Nat) (i : Nat) : Bool :=
  decide (1 ≤ ca i ∧ 1 ≤ cb i)

/-- Exactly one mate has a hit at index `i`. -/
def hit_eitherb (ca cb : Nat → Nat) (i : Nat) : Bool :=
  decide ((1 ≤ ca i ∧ cb i = 0) ∨ (ca i = 0 ∧ 1 ≤ cb i))

/-- `threshold_met` as seen on entry to iteration `i`: some earlier index
satisfied tier 1. -/
def tm_before (thrR thrO : Nat) (ca cb : Nat → Nat) (i : Nat) : Bool :=
  (List.range i).any (tier1b thrR thrO ca cb)

/-- Value of the `one_in_both` tally on entry to iteration `i`. -/
def oib_before (thrR thrO : Nat) (ca cb : Nat → Nat) (i : Nat) : Nat :=
  ((List.range i).filter (fun j => !tier1b thrR thrO ca cb j
      && !tm_before thrR thrO ca cb j && hit_bothb ca cb j)).length

/-- Value of the `one_in_either` tally on entry to iteration `i`. -/
def oie_before (thrR thrO : Nat) (ca cb : Nat → Nat) (i : Nat) : Nat :=
  ((List.range i).filter (fun j => !tier1b thrR thrO ca cb j
      && !tm_before thrR thrO ca cb j && !hit_bothb ca cb j
      && hit_eitherb ca cb j)).length

/-- Index `i` competes for the shared running best `largest_kmers` /
`largest_contaminant`: either it satisfies tier 1, or it is visited before
any tier-1 match and satisfies tier 2 (both mates hit; or exactly one mate
hit while no both-tier competitor was tallied yet). -/
def competitorb (thrR thrO : Nat) (ca cb : Nat → Nat) (i : Nat) : Bool :=
  tier1b thrR thrO ca cb i
    || (!tm_before thrR thrO ca cb i && !tier1b thrR thrO ca cb i
        && (hit_bothb ca cb i
            || (hit_eitherb ca cb i && (oib_before thrR thrO ca cb i == 0))))

/-- Reference form of the shared running best: strict-improvement maximum
of `t` over the competing indices, ties and non-improvements keeping the
earlier index, `(0, 0)` when nothing exceeded zero. -/
def run_best (t : Nat → Nat) (comp : Nat → Bool) : Nat → Nat × Nat
  | 0 => (0, 0)
  | i + 1 =>
      let p := run_best t comp i
      if comp i && decide (p.1 < t i) then (t i, i) else p

lemma tm_before_succ (thrR thrO : Nat) (ca cb : Nat → Nat) (n : Nat) :
    tm_before thrR thrO ca cb (n + 1)
      = (tm_before thrR thrO ca cb n || tier1b thrR thrO ca cb n) := by
  simp [tm_before, List.range_succ]

lemma oib_before_succ (thrR thrO : Nat) (ca cb : Nat → Nat) (n : Nat) :
    oib_before thrR thrO ca cb (n + 1)
      = oib_before thrR thrO ca cb n
        + (if (!tier1b thrR thrO ca cb n && !tm_before thrR thrO ca cb n
               && hit_bothb ca cb n) = true then 1 else 0) := by
  simp only [oib_before, List.range_succ, List.filter_append, List.length_append]
  congr 1
  by_cases h : (!tier1b thrR thrO ca cb n && !tm_before thrR thrO ca cb n
      && hit_bothb ca cb n) = true
  · rw [if_pos h]
    simp [h]
  · rw [if_neg h]
    simp [h]

lemma oie_before_succ (thrR thrO : Nat) (ca cb : Nat → Nat) (n : Nat) :
    oie_before thrR thrO ca cb (n + 1)
      = oie_before thrR thrO ca cb n
        + (if (!tier1b thrR thrO ca cb n && !tm_before thrR thrO ca cb n
               && !hit_bothb ca cb n && hit_eitherb ca cb n) = true then 1 else 0) := by
  simp only [oie_before, List.range_succ, List.filter_append, List.length_append]
  congr 1
  by_cases h : (!tier1b thrR thrO ca cb n && !tm_before thrR thrO ca cb n
      && !hit_bothb ca cb n && hit_eitherb ca cb n) = true
  · rw [if_pos h]
    simp [h]
  · rw [if_neg h]
    simp [h]

lemma run_best_succ (t : Nat → Nat) (comp : Nat → Bool) (n : Nat) :
    run_best t comp (n + 1)
      = (if comp n && decide ((run_best t comp n).1 < t n)
         then (t n, n) else run_best t comp n) := rfl

/-- The scan of one tier of `update_stats_for_both` computes: whether some
index satisfied tier 1, the shared running best over the competing indices
(`run_best`), and the two tier-2 tallies. -/
lemma both_scan_characterization (thrR thrO : Nat) (ca cb : Nat → Nat) :
    ∀ n : Nat,
      both_scan thrR thrO ca cb n
        = ⟨tm_before thrR thrO ca cb n,
           (run_best (fun i => ca i + cb i) (competitorb thrR thrO ca cb) n).1,
           (run_best (fun i => ca i + cb i) (competitorb thrR thrO ca cb) n).2,
           oib_before thrR thrO ca cb n,
           oie_before thrR thrO ca cb n⟩ := by
  intro n
  induction n with
  | zero => rfl
  | succ n ih =>
      have hsucc : both_scan thrR thrO ca cb (n + 1)
          = both_scan_step thrR thrO ca cb (both_scan thrR thrO ca cb n) n := by
        simp [both_scan, List.range_succ]
      rw [hsucc, ih, tm_before_succ, oib_before_succ, oie_before_succ, run_best_succ]
      by_cases ht : thrR ≤ ca n ∧ thrR ≤ cb n ∧ thrO ≤ ca n + cb n
      · have ht1 : tier1b thrR thrO ca cb n = true := by simp [tier1b, ht]
        have hcomp : competitorb thrR thrO ca cb n = true := by
          simp [competitorb, ht1]
        simp only [both_scan_step]
        rw [if_pos ht]
        by_cases hcmp :
            (run_best (fun i => ca i + cb i) (competitorb thrR thrO ca cb) n).1
              < ca n + cb n
        · simp [hcmp, hcomp, ht1]
        · simp [hcmp, hcomp, ht1]
      · have ht1 : tier1b thrR thrO ca cb n = false := by simp [tier1b, ht]
        simp only [both_scan_step]
        rw [if_neg ht]
        by_cases htm : tm_before thrR thrO ca cb n = true
        · have hcomp : competitorb thrR thrO ca cb n = false := by
            simp [competitorb, ht1, htm]
          simp [htm, hcomp, ht1]
        · have htm' : tm_before thrR thrO ca cb n = false := by simpa using htm
          by_cases hb : 1 ≤ ca n ∧ 1 ≤ cb n
          · have hbb : hit_bothb ca cb n = true := by simp [hit_bothb, hb]
            have hcomp : competitorb thrR thrO ca cb n = true := by
              simp [competitorb, ht1, htm', hbb]
            by_cases hcmp :
                (run_best (fun i => ca i + cb i) (competitorb thrR thrO ca cb) n).1
                  < ca n + cb n
            · simp [htm', hb, hbb, hcomp, ht1, hcmp]
            · simp [htm', hb, hbb, hcomp, ht1, hcmp]
          · have hbb : hit_bothb ca cb n = false := by simp [hit_bothb, hb]
            by_cases he : (1 ≤ ca n ∧ cb n = 0) ∨ (ca n = 0 ∧ 1 ≤ cb n)
            · have heb : hit_eitherb ca cb n = true := by simp [hit_eitherb, he]
              by_cases hoib : oib_before thrR thrO ca cb n = 0
              · have hcomp : competitorb thrR thrO ca cb n = true := by
                  simp [competitorb, ht1, htm', hbb, heb, hoib]
                by_cases hcmp :
                    (run_best (fun i => ca i + cb i) (competitorb thrR thrO ca cb) n).1
                      < ca n + cb n
                · simp [htm', hb, hbb, he, heb, hoib, hcomp, ht1, hcmp]
                · simp [htm', hb, hbb, he, heb, hoib, hcomp, ht1, hcmp]
              · have hcomp : competitorb thrR thrO ca cb n = false := by
                  simp [competitorb, ht1, htm', hbb, heb, hoib]
                simp [htm', hb, hbb, he, heb, hoib, hcomp, ht1]
            · have heb : hit_eitherb ca cb n = false := by simp [hit_eitherb, he]
              have hcomp : competitorb thrR thrO ca cb n = false := by
                simp [competitorb, ht1, htm', hbb, heb]
              simp [htm', hb, hbb, he, heb, hcomp, ht1]

/-- `run_best` computes the maximum of `t` over the competing indices, and
(when positive) records the *earliest* index attaining it: every earlier
competitor is strictly smaller (strict `>` to update, ties keep the earlier
index). -/
lemma run_best_spec (t : Nat → Nat) (comp : Nat → Bool) :
    ∀ n : Nat,
      (∀ j, j < n → comp j = true → t j ≤ (run_best t comp n).1)
      ∧ (0 < (run_best t comp n).1 →
          ((run_best t comp n).2 < n ∧ comp (run_best t comp n).2 = true
           ∧ t (run_best t comp n).2 = (run_best t comp n).1
           ∧ ∀ j, j < (run_best t comp n).2 → comp j = true →
               t j < (run_best t comp n).1))
      ∧ ((run_best t comp n).1 = 0 → (run_best t comp n).2 = 0) := by
  intro n
  induction n with
  | zero =>
      refine ⟨fun j hj _ => absurd hj (by omega), fun h => absurd h (by simp [run_best]), fun _ => rfl⟩
  | succ n ih =>
      obtain ⟨ih1, ih2, ih3⟩ := ih
      rw [run_best_succ]
      by_cases hup : (comp n && decide ((run_best t comp n).1 < t n)) = true
      · rw [if_pos hup]
        rw [Bool.and_eq_true] at hup
        obtain ⟨hcn, hlt⟩ := hup
        have hlt' : (run_best t comp n).1 < t n := of_decide_eq_true hlt
        refine ⟨?_, ?_, ?_⟩
        · intro j hj hcj
          rcases Nat.lt_or_ge j n with h | h
          · exact le_of_lt (lt_of_le_of_lt (ih1 j h hcj) hlt')
          · have : j = n := by omega
            subst this
            exact le_refl _
        · intro _
          refine ⟨by omega, hcn, rfl, ?_⟩
          intro j hj hcj
          exact lt_of_le_of_lt (ih1 j hj hcj) hlt'
        · intro h0
          exfalso
          omega
      · rw [if_neg hup]
        refine ⟨?_, ?_, ih3⟩
        · intro j hj hcj
          rcases Nat.lt_or_ge j n with h | h
          · exact ih1 j h hcj
          · have hjn : j = n := by omega
            have hnlt : ¬ (run_best t comp n).1 < t n := by
              intro hlt
              rw [hjn] at hcj
              exact hup (by simp [hcj, hlt])
            rw [hjn]
            omega
        · intro hpos
          obtain ⟨ha, hb, hc, hd⟩ := ih2 hpos
          exact ⟨by omega, hb, hc, hd⟩

/-- **C4 (amended).**  When the raw tier of paired classification resolves
to threshold-met, the per-contaminant counter incremented is indexed by the
final value of the *shared* running best `largest_contaminant` — the
earliest index attaining the maximal combined count `a+b` over all
*competing* contaminants (`competitorb`): those satisfying the tier-1
thresholds **and** those tier-2 contaminants visited before any tier-1
match (both-mates-hit, or one-mate-hit while the `one_in_both` tally was
still zero).  Every tier-1 qualifier is a competitor, so the winner's count
dominates every tier-1 qualifier's, and ties keep the earliest index — but
the winning index itself may be a contaminant that only qualified at tier
2 (see the counterexample). -/
theorem claim_C4_threshold_best_shared_running_best :
    ∀ (cmd_line : CmdLine) (n : Nat) (counts_a counts_b : KmerCounts)
      (st : KmerStatsBothReads),
      (update_stats_for_both cmd_line n counts_a counts_b st).2.threshold_passed_reads_by_contaminant
          = (if (raw_scan cmd_line counts_a counts_b n).threshold_met = true
             then bump st.threshold_passed_reads_by_contaminant
                    (raw_scan cmd_line counts_a counts_b n).largest_contaminant
             else st.threshold_passed_reads_by_contaminant)
      ∧ ((raw_scan cmd_line counts_a counts_b n).largest_kmers,
         (raw_scan cmd_line counts_a counts_b n).largest_contaminant)
          = run_best
              (fun i => counts_a.kmers_from_contaminant i + counts_b.kmers_from_contaminant i)
              (competitorb cmd_line.kmer_threshold_read cmd_line.kmer_threshold_overall
                counts_a.kmers_from_contaminant counts_b.kmers_from_contaminant) n
      ∧ (raw_scan cmd_line counts_a counts_b n).threshold_met
          = tm_before cmd_line.kmer_threshold_read cmd_line.kmer_threshold_overall
              counts_a.kmers_from_contaminant counts_b.kmers_from_contaminant n
      ∧ (∀ j, tier1b cmd_line.kmer_threshold_read cmd_line.kmer_threshold_overall
            counts_a.kmers_from_contaminant counts_b.kmers_from_contaminant j = true →
          competitorb cmd_line.kmer_threshold_read cmd_line.kmer_threshold_overall
            counts_a.kmers_from_contaminant counts_b.kmers_from_contaminant j = true)
      ∧ (∀ j, j < n →
          competitorb cmd_line.kmer_threshold_read cmd_line.kmer_threshold_overall
            counts_a.kmers_from_contaminant counts_b.kmers_from_contaminant j = true →
          counts_a.kmers_from_contaminant j + counts_b.kmers_from_contaminant j
            ≤ (raw_scan cmd_line counts_a counts_b n).largest_kmers)
      ∧ (0 < (raw_scan cmd_line counts_a counts_b n).largest_kmers →
          ((raw_scan cmd_line counts_a counts_b n).largest_contaminant < n
           ∧ competitorb cmd_line.kmer_threshold_read cmd_line.kmer_threshold_overall
               counts_a.kmers_from_contaminant counts_b.kmers_from_contaminant
               (raw_scan cmd_line counts_a counts_b n).largest_contaminant = true
           ∧ counts_a.kmers_from_contaminant
                 (raw_scan cmd_line counts_a counts_b n).largest_contaminant
               + counts_b.kmers_from_contaminant
                 (raw_scan cmd_line counts_a counts_b n).largest_contaminant
               = (raw_scan cmd_line counts_a counts_b n).largest_kmers
           ∧ ∀ j, j < (raw_scan cmd_line counts_a counts_b n).largest_contaminant →
               competitorb cmd_line.kmer_threshold_read cmd_line.kmer_threshold_overall
                 counts_a.kmers_from_contaminant counts_b.kmers_from_contaminant j = true →
               counts_a.kmers_from_contaminant j + counts_b.kmers_from_contaminant j
                 < (raw_scan cmd_line counts_a counts_b n).largest_kmers))
      ∧ (update_stats_for_both cmd_line n counts_a counts_b st).2.threshold_passed_reads_unique_by_contaminant
          = (if (unique_scan cmd_line counts_a counts_b n).threshold_met = true
             then bump st.threshold_passed_reads_unique_by_contaminant
                    (unique_scan cmd_line counts_a counts_b n).largest_contaminant
             else st.threshold_passed_reads_unique_by_contaminant)
      ∧ ((unique_scan cmd_line counts_a counts_b n).largest_kmers,
         (unique_scan cmd_line counts_a counts_b n).largest_contaminant)
          = run_best
              (fun i => counts_a.unique_kmers_from_contaminant i
                + counts_b.unique_kmers_from_contaminant i)
              (competitorb cmd_line.kmer_threshold_read cmd_line.kmer_threshold_overall
                counts_a.unique_kmers_from_contaminant
                counts_b.unique_kmers_from_contaminant) n := by
  intro cmd_line n counts_a counts_b st
  have hchar := both_scan_characterization cmd_line.kmer_threshold_read
    cmd_line.kmer_threshold_overall counts_a.kmers_from_contaminant
    counts_b.kmers_from_contaminant n
  have hscan : raw_scan cmd_line counts_a counts_b n
      = ⟨tm_before cmd_line.kmer_threshold_read cmd_line.kmer_threshold_overall
           counts_a.kmers_from_contaminant counts_b.kmers_from_contaminant n,
         (run_best (fun i => counts_a.kmers_from_contaminant i + counts_b.kmers_from_contaminant i)
            (competitorb cmd_line.kmer_threshold_read cmd_line.kmer_threshold_overall
              counts_a.kmers_from_contaminant counts_b.kmers_from_contaminant) n).1,
         (run_best (fun i => counts_a.kmers_from_contaminant i + counts_b.kmers_from_contaminant i)
            (competitorb cmd_line.kmer_threshold_read cmd_line.kmer_threshold_overall
              counts_a.kmers_from_contaminant counts_b.kmers_from_contaminant) n).2,
         oib_before cmd_line.kmer_threshold_read cmd_line.kmer_threshold_overall
           counts_a.kmers_from_contaminant counts_b.kmers_from_contaminant n,
         oie_before cmd_line.kmer_threshold_read cmd_line.kmer_threshold_overall
           counts_a.kmers_from_contaminant counts_b.kmers_from_contaminant n⟩ := hchar
  obtain ⟨hs1, hs2, hs3⟩ := run_best_spec
    (fun i => counts_a.kmers_from_contaminant i + counts_b.kmers_from_contaminant i)
    (competitorb cmd_line.kmer_threshold_read cmd_line.kmer_threshold_overall
      counts_a.kmers_from_contaminant counts_b.kmers_from_contaminant) n
  have hscanu : unique_scan cmd_line counts_a counts_b n
      = ⟨tm_before cmd_line.kmer_threshold_read cmd_line.kmer_threshold_overall
           counts_a.unique_kmers_from_contaminant counts_b.unique_kmers_from_contaminant n,
         (run_best (fun i => counts_a.unique_kmers_from_contaminant i
              + counts_b.unique_kmers_from_contaminant i)
            (competitorb cmd_line.kmer_threshold_read cmd_line.kmer_threshold_overall
              counts_a.unique_kmers_from_contaminant
              counts_b.unique_kmers_from_contaminant) n).1,
         (run_best (fun i => counts_a.unique_kmers_from_contaminant i
              + counts_b.unique_kmers_from_contaminant i)
            (competitorb cmd_line.kmer_threshold_read cmd_line.kmer_threshold_overall
              counts_a.unique_kmers_from_contaminant
              counts_b.unique_kmers_from_contaminant) n).2,
         oib_before cmd_line.kmer_threshold_read cmd_line.kmer_threshold_overall
           counts_a.unique_kmers_from_contaminant counts_b.unique_kmers_from_contaminant n,
         oie_before cmd_line.kmer_threshold_read cmd_line.kmer_threshold_overall
           counts_a.unique_kmers_from_contaminant counts_b.unique_kmers_from_contaminant n⟩ :=
    both_scan_characterization cmd_line.kmer_threshold_read
      cmd_line.kmer_threshold_overall counts_a.unique_kmers_from_contaminant
      counts_b.unique_kmers_from_contaminant n
  refine ⟨?_, ?_, ?_, ?_, ?_, ?_, ?_, ?_⟩
  · have h := both_fold_eq cmd_line counts_a counts_b n
    simp only [update_stats_for_both, h]
    rcases hs : raw_scan cmd_line counts_a counts_b n with ⟨tm, lk, lc, oib, oie⟩
    rcases hu : unique_scan cmd_line counts_a counts_b n with ⟨utm, ulk, ulc, uoib, uoie⟩
    cases tm <;> cases utm <;> simp <;> split_ifs <;> simp_all
  · rw [hscan]
  · rw [hscan]
  · intro j ht
    simp [competitorb, ht]
  · intro j hj hc
    rw [hscan]
    exact hs1 j hj hc
  · rw [hscan]
    intro hpos
    exact hs2 hpos
  · have h := both_fold_eq cmd_line counts_a counts_b n
    simp only [update_stats_for_both, h]
    rcases hs : raw_scan cmd_line counts_a counts_b n with ⟨tm, lk, lc, oib, oie⟩
    rcases hu : unique_scan cmd_line counts_a counts_b n with ⟨utm, ulk, ulc, uoib, uoie⟩
    cases tm <;> cases utm <;> simp <;> split_ifs <;> simp_all
  · rw [hscanu]

/-- **C4** is false as stated: with `kmer_threshold_read = 2`,
`kmer_threshold_overall = 4` and mate hit counts `a = [10, 2]`,
`b = [1, 2]`, contaminant 0 fails tier 1 (`b[0] = 1 < 2`) but competes at
tier 2 with `t = 11`, while contaminant 1 is the only tier-1 qualifier
(`t = 4`).  The raw tier resolves to threshold-met, yet the incremented
per-contaminant counter is index 0 — a contaminant that only qualified at
tier 2 supplies the best index, and the unique tier-1 qualifier's counter
stays 0. -/
theorem claim_C4_counterexample :
    ((raw_scan ⟨2, 4, false⟩
        ⟨20, (fun i => if i = 0 then 10 else 2), (fun _ => 0), 2⟩
        ⟨20, (fun i => if i = 0 then 1 else 2), (fun _ => 0), 2⟩ 2).threshold_met,
     tier1b 2 4 (fun i => if i = 0 then 10 else 2) (fun i => if i = 0 then 1 else 2) 0,
     tier1b 2 4 (fun i => if i = 0 then 10 else 2) (fun i => if i = 0 then 1 else 2) 1,
     (update_stats_for_both ⟨2, 4, false⟩ 2
        ⟨20, (fun i => if i = 0 then 10 else 2), (fun _ => 0), 2⟩
        ⟨20, (fun i => if i = 0 then 1 else 2), (fun _ => 0), 2⟩
        kmer_stats_both_reads_initialise).2.threshold_passed_reads_by_contaminant 0,
     (update_stats_for_both ⟨2, 4, false⟩ 2
        ⟨20, (fun i => if i = 0 then 10 else 2), (fun _ => 0), 2⟩
        ⟨20, (fun i => if i = 0 then 1 else 2), (fun _ => 0), 2⟩
        kmer_stats_both_reads_initialise).2.threshold_passed_reads_by_contaminant 1)
      = (true, false, true, 1, 0) := by decide

/-- Witness for C4 (amended): at the counterexample input the raw tier is
threshold-met; the tier-1 qualifier (index 1, a competitor) is dominated
by the shared running best, as the theorem's domination component states. -/
theorem claim_C4_threshold_best_shared_running_best_witness :
    (1 : Nat) < 2
    ∧ competitorb 2 4 (fun i => if i = 0 then 10 else 2)
        (fun i => if i = 0 then 1 else 2) 1 = true
    ∧ (fun i => if i = 0 then 10 else 2) 1 + (fun i => if i = 0 then 1 else 2) 1
        ≤ (raw_scan ⟨2, 4, false⟩
            ⟨20, (fun i => if i = 0 then 10 else 2), (fun _ => 0), 2⟩
            ⟨20, (fun i => if i = 0 then 1 else 2), (fun _ => 0), 2⟩ 2).largest_kmers :=
  ⟨by decide, by decide,
   (claim_C4_threshold_best_shared_running_best ⟨2, 4, false⟩ 2
      ⟨20, (fun i => if i = 0 then 10 else 2), (fun _ => 0), 2⟩
      ⟨20, (fun i => if i = 0 then 1 else 2), (fun _ => 0), 2⟩
      kmer_stats_both_reads_initialise).2.2.2.2.1 1 (by decide) (by decide)⟩
